import Mathlib

/-!
Verification of the Siril log analyzer (src/siril_log_analyzer.py).

The Python source is shallowly embedded: each extraction pass of
`SirilLogParser` becomes a Lean function over the list of log lines
(`List String`), Python `int` becomes `Int`, Python `float` samples are
modelled as exact rationals (`ℚ`, the parsed values are decimal literals),
`datetime` timestamps become seconds-of-day (`Nat`), `timedelta` becomes
`Int` (seconds), `None` becomes `Option`, and the rendered report lines
become structured values carrying the same payloads the f-strings would
interpolate.  Regular-expression searches are embedded as leftmost scans
with greedy digit runs, which coincide with the Python regexes used here
(every quantified class is followed by a character outside the class).
-/

namespace SirilLog

/-! ## Character and scanning helpers -/

/-- Numeric value of a digit character. -/
def dv (c : Char) : Nat := c.toNat - 48

/-- `listPre p l` : `p` is a prefix of `l` (character lists). -/
def listPre : List Char → List Char → Bool
  | [], _ => true
  | _ :: _, [] => false
  | p :: ps, c :: cs => p == c && listPre ps cs

/-- `listSub p l` : `p` occurs as a contiguous substring of `l`
(Python's `p in l`). -/
def listSub (pat : List Char) : List Char → Bool
  | [] => listPre pat []
  | c :: cs => listPre pat (c :: cs) || listSub pat cs

/-- Python's `pat in line` on strings. -/
def containsSub (pat line : String) : Bool := listSub pat.toList line.toList

/-- Drop a literal prefix, or fail. -/
def dropLit : List Char → List Char → Option (List Char)
  | [], cs => some cs
  | _ :: _, [] => none
  | p :: ps, c :: cs => if p == c then dropLit ps cs else none

/-- Split off the leading run of decimal digits. -/
def takeDigits : List Char → List Char × List Char
  | [] => ([], [])
  | c :: cs =>
    if c.isDigit then
      let (ds, r) := takeDigits cs
      (c :: ds, r)
    else ([], c :: cs)

/-- ASCII whitespace, the model of the regex class `\s`. -/
def isSpaceChar (c : Char) : Bool :=
  c == ' ' || c == '\t' || c == '\n' || c == '\r' || c == (Char.ofNat 11) || c == (Char.ofNat 12)

/-- Split off the leading run of whitespace. -/
def takeSpaces : List Char → List Char × List Char
  | [] => ([], [])
  | c :: cs =>
    if isSpaceChar c then
      let (ds, r) := takeSpaces cs
      (c :: ds, r)
    else ([], c :: cs)

/-- Value of a digit run (most significant first). -/
def digitsToNat (ds : List Char) : Nat := ds.foldl (fun acc c => 10 * acc + dv c) 0

/-- Leftmost search: try the matcher at every suffix, left to right,
exactly like `re.search`. -/
def scanFrom (f : List Char → Option α) : List Char → Option α
  | [] => f []
  | c :: cs =>
    match f (c :: cs) with
    | some v => some v
    | none => scanFrom f cs

/-- Match `pre (\d+) post` at the current position. -/
def numAfter (pre post : List Char) (cs : List Char) : Option Int :=
  match dropLit pre cs with
  | none => none
  | some rest =>
    match takeDigits rest with
    | ([], _) => none
    | (ds, rest2) => if listPre post rest2 then some (digitsToNat ds : Int) else none

/-- `re.search(r'pre (\d+) post', line)`, returning the captured number. -/
def searchNum (pre post line : String) : Option Int :=
  scanFrom (numAfter pre.toList post.toList) line.toList

/-- Match `(\d+) mid (\d+)` at the current position. -/
def twoNumsAt (mid : List Char) (cs : List Char) : Option (Int × Int) :=
  match takeDigits cs with
  | ([], _) => none
  | (ds1, r1) =>
    match dropLit mid r1 with
    | none => none
    | some r2 =>
      match takeDigits r2 with
      | ([], _) => none
      | (ds2, _) => some ((digitsToNat ds1 : Int), (digitsToNat ds2 : Int))

/-- The plate-solve summary regex
`(\d+) images successfully platesolved out of (\d+)`. -/
def psSummaryNums (line : String) : Option (Int × Int) :=
  scanFrom (twoNumsAt " images successfully platesolved out of ".toList) line.toList

/-- Exact value of the decimal literal `ip.fp`. -/
def mkDec (ip fp : List Char) : ℚ :=
  (digitsToNat ip : ℚ) + (digitsToNat fp : ℚ) / ((10 : ℚ) ^ fp.length)

/-- Match `pre (\d+\.\d+)` at the current position. -/
def decAfter (pre : List Char) (cs : List Char) : Option ℚ :=
  match dropLit pre cs with
  | none => none
  | some r =>
    match takeDigits r with
    | ([], _) => none
    | (ip, r1) =>
      match r1 with
      | '.' :: r2 =>
        match takeDigits r2 with
        | ([], _) => none
        | (fp, _) => some (mkDec ip fp)
      | _ => none

/-- `re.search(r'pre (\d+\.\d+)', line)` as an exact rational. -/
def searchDec (pre line : String) : Option ℚ :=
  scanFrom (decAfter pre.toList) line.toList

/-- Match the rotation regex `Rotation:\s+([\+\-]?\d+\.\d+)` at the
current position. -/
def rotAt (cs : List Char) : Option ℚ :=
  match dropLit "Rotation:".toList cs with
  | none => none
  | some r =>
    match takeSpaces r with
    | ([], _) => none
    | (_, r1) =>
      let sgnRest : ℚ × List Char :=
        match r1 with
        | '+' :: t => (1, t)
        | '-' :: t => (-1, t)
        | t => (1, t)
      match takeDigits sgnRest.2 with
      | ([], _) => none
      | (ip, r3) =>
        match r3 with
        | '.' :: r4 =>
          match takeDigits r4 with
          | ([], _) => none
          | (fp, _) => some (sgnRest.1 * mkDec ip fp)
        | _ => none

/-- `re.search(r'Rotation:\s+([\+\-]?\d+\.\d+)', line)`. -/
def searchRot (line : String) : Option ℚ :=
  scanFrom rotAt line.toList

/-- Split off the leading run of the class `[\d\.]`. -/
def takeDD : List Char → List Char × List Char
  | [] => ([], [])
  | c :: cs =>
    if c.isDigit || c == '.' then
      let (ds, r) := takeDD cs
      (c :: ds, r)
    else ([], c :: cs)

/-- Split a digits-and-dots run at its first dot. -/
def splitDot : List Char → List Char × Option (List Char)
  | [] => ([], none)
  | '.' :: t => ([], some t)
  | c :: t =>
    let (a, b) := splitDot t
    (c :: a, b)

/-- Python `float()` applied to a `[\d\.]+` capture group: `some` is
the converted value; `none` models the `ValueError` float() raises on a
multi-dot or dot-only group such as `1.2.3` or `.` — in the source this
exception is uncaught, so callers of this model must propagate it, not
treat it as a non-match. -/
def ddVal (ds : List Char) : Option ℚ :=
  match splitDot ds with
  | (ip, none) => if ip.isEmpty then none else some (digitsToNat ip : ℚ)
  | (ip, some fp) =>
    if fp.any (· == '.') then none
    else if ip.isEmpty && fp.isEmpty then none
    else some (mkDec ip fp)

/-- Match the rejection regex
`channel #(\d+):\s+([\d\.]+)%\s*-\s*([\d\.]+)%` at the current
position.  Pure regex matching only: the result carries the channel
number and the two *raw* percentage capture groups; the `float()`
conversion of those groups happens at the call site (and may raise). -/
def rejAt (cs : List Char) : Option (Nat × List Char × List Char) :=
  match dropLit "channel #".toList cs with
  | none => none
  | some r =>
    match takeDigits r with
    | ([], _) => none
    | (ch, r1) =>
      match r1 with
      | ':' :: r2 =>
        match takeSpaces r2 with
        | ([], _) => none
        | (_ :: _, r3) =>
          match takeDD r3 with
          | ([], _) => none
          | (g2, r4) =>
            match r4 with
            | '%' :: r5 =>
              let r6 := (takeSpaces r5).2
              match r6 with
              | '-' :: r7 =>
                let r8 := (takeSpaces r7).2
                match takeDD r8 with
                | ([], _) => none
                | (g3, r9) =>
                  match r9 with
                  | '%' :: _ => some (digitsToNat ch, g2, g3)
                  | _ => none
              | _ => none
            | _ => none
      | _ => none

/-- `re.search(r'channel #(\d+):\s+([\d\.]+)%\s*-\s*([\d\.]+)%', line)`:
the leftmost match's capture groups, unconverted. -/
def searchRej (line : String) : Option (Nat × List Char × List Char) :=
  scanFrom rejAt line.toList

/-! ## Timestamp extraction (`_parse_timestamp`) -/

/-- `_parse_timestamp`: match `^(\d{2}:\d{2}:\d{2}):`, then validate the
groups as `strptime` would (an out-of-range field raises and is caught,
yielding `None`).  The result is the time of day in seconds. -/
def parse_timestamp (line : String) : Option Nat :=
  match line.toList with
  | c0 :: c1 :: c2 :: c3 :: c4 :: c5 :: c6 :: c7 :: c8 :: _ =>
    if c0.isDigit && c1.isDigit && c2 == ':' && c3.isDigit && c4.isDigit && c5 == ':'
        && c6.isDigit && c7.isDigit && c8 == ':' then
      let h := 10 * dv c0 + dv c1
      let m := 10 * dv c3 + dv c4
      let s := 10 * dv c6 + dv c7
      if h ≤ 23 && m ≤ 59 && s ≤ 59 then some (h * 3600 + m * 60 + s) else none
    else none
  | _ => none

/-! ## Data model -/

/-- A detected pattern (`_detect_patterns` appends formatted strings; the
constructors carry the interpolated payloads). -/
inductive Pat where
  | plateSolveFail (failures : Int) (rate : ℚ)
  | retentionInfo (rate : ℚ) (lost : Int)
  | fwhmRange (mn mx avg : ℚ)
  | mosaic (mn mx : ℚ)
  | parallel (n : Int)
  | rejection (stats : List (Nat × ℚ × ℚ))
  deriving DecidableEq

/-- `PhaseInfo` dataclass. -/
structure PhaseInfo where
  name : String
  start_time : Option Nat := none
  end_time : Option Nat := none
  duration : Option Int := none
  image_count_in : Option Int := none
  image_count_out : Option Int := none
  failed : Bool := false
  error_message : Option String := none
  deriving DecidableEq

/-- `LogAnalysis` dataclass.  `rejection_stats` is an insertion-ordered
association list, the model of a Python dict. -/
structure LogAnalysis where
  phases : List PhaseInfo := []
  initial_images : Int := 0
  final_images : Int := 0
  plate_solve_failures : Int := 0
  plate_solve_successes : Int := 0
  fwhm_values : List ℚ := []
  rotation_angles : List ℚ := []
  rejection_stats : List (Nat × ℚ × ℚ) := []
  processors_used : Int := 0
  patterns : List Pat := []
  errors : List String := []
  deriving DecidableEq

/-- Dict assignment `rejection_stats[channel] = v`: overwrite in place if
the key exists, else append (Python dicts keep insertion order). -/
def setChannel (m : List (Nat × ℚ × ℚ)) (c : Nat) (lo hi : ℚ) : List (Nat × ℚ × ℚ) :=
  if m.any (fun e => e.1 == c) then
    m.map (fun e => if e.1 == c then (c, lo, hi) else e)
  else m ++ [(c, lo, hi)]

/-- The shared tail of every extractor:
`if phase.start_time and phase.end_time: phase.duration = end - start;
self.analysis.phases.append(phase)`. -/
def appendIfTimed (a : LogAnalysis) (p : PhaseInfo) : LogAnalysis :=
  match p.start_time, p.end_time with
  | some st, some en =>
    { a with phases := a.phases ++ [{ p with duration := some ((en : Int) - (st : Int)) }] }
  | _, _ => a

/-! ## Extraction passes -/

/-- Loop body of `_extract_initial_info`. -/
def initialInfoStep (a : LogAnalysis) (line : String) : LogAnalysis :=
  if containsSub "Parallel processing enabled" line then
    match searchNum "using " " logical processors" line with
    | some n => { a with processors_used := n }
    | none => a
  else a

/-- `_extract_initial_info`. -/
def extract_initial_info (lines : List String) (a : LogAnalysis) : LogAnalysis :=
  lines.foldl initialInfoStep a

/-- Loop body of `_extract_conversion_phase`. -/
def convStep (s : LogAnalysis × PhaseInfo) (line : String) : LogAnalysis × PhaseInfo :=
  if containsSub "Convert: processing" line then
    let p := { s.2 with start_time := parse_timestamp line }
    match searchNum "processing " " files" line with
    | some n =>
      let p := { p with image_count_in := some n, image_count_out := some n }
      let a := if s.1.initial_images = 0 then { s.1 with initial_images := n } else s.1
      (a, p)
    | none => (s.1, p)
  else if containsSub "Converted" line && containsSub "files for processing" line then
    let p := { s.2 with end_time := parse_timestamp line }
    match searchNum "Converted " "" line with
    | some n => (s.1, { p with image_count_out := some n })
    | none => (s.1, p)
  else s

/-- The scan of `_extract_conversion_phase`. -/
def convScan (lines : List String) (a : LogAnalysis) : LogAnalysis × PhaseInfo :=
  lines.foldl convStep (a, { name := "File Conversion" })

/-- `_extract_conversion_phase`. -/
def extract_conversion_phase (lines : List String) (a : LogAnalysis) : LogAnalysis :=
  let s := convScan lines a
  appendIfTimed s.1 s.2

/-- State of the plate-solving scan: the analysis record, the phase under
construction, `solved_count` and `failed_count`. -/
structure PsState where
  a : LogAnalysis
  p : PhaseInfo
  solved : Int
  failed : Int

/-- Loop body of `_extract_plate_solve_phase`: the three-way `elif`
chain followed by the unconditional FWHM and rotation searches. -/
def psStep (s : PsState) (line : String) : PsState :=
  let s :=
    if containsSub "platesolved and updated" line then
      let p := if s.p.start_time.isSome then s.p
               else { s.p with start_time := parse_timestamp line }
      { s with p := { p with end_time := parse_timestamp line }, solved := s.solved + 1 }
    else if containsSub "did not solve" line then
      let p := if s.p.start_time.isSome then s.p
               else { s.p with start_time := parse_timestamp line }
      { s with p := { p with end_time := parse_timestamp line }, failed := s.failed + 1 }
    else if containsSub "images successfully platesolved out of" line then
      let s :=
        match psSummaryNums line with
        | some nm => { s with solved := nm.1, failed := nm.2 - nm.1 }
        | none => s
      { s with p := { s.p with end_time := parse_timestamp line } }
    else s
  let s :=
    match searchDec "FWHM " line with
    | some q => { s with a := { s.a with fwhm_values := s.a.fwhm_values ++ [q] } }
    | none => s
  match searchRot line with
  | some q => { s with a := { s.a with rotation_angles := s.a.rotation_angles ++ [q] } }
  | none => s

/-- The scan of `_extract_plate_solve_phase`. -/
def psScan (lines : List String) (a : LogAnalysis) : PsState :=
  lines.foldl psStep { a := a, p := { name := "Plate Solving" }, solved := 0, failed := 0 }

/-- `_extract_plate_solve_phase`. -/
def extract_plate_solve_phase (lines : List String) (a : LogAnalysis) : LogAnalysis :=
  let s := psScan lines a
  let a := { s.a with plate_solve_successes := s.solved, plate_solve_failures := s.failed }
  let p := { s.p with
    image_count_in := if s.solved + s.failed > 0 then some (s.solved + s.failed) else none,
    image_count_out := if s.solved > 0 then some s.solved else none }
  appendIfTimed a p

/-- `line.lower()`: ASCII lower-casing of the line's characters. -/
def lowerList (line : String) : List Char := line.toList.map Char.toLower

/-- The background-extraction marker test
(`"seqsubsky" in line.lower() or "background extracted" in line.lower()`). -/
def bgMarker (line : String) : Bool :=
  listSub "seqsubsky".toList (lowerList line)
    || listSub "background extracted".toList (lowerList line)

/-- Loop body of `_extract_background_phase`. -/
def bgStep (p : PhaseInfo) (line : String) : PhaseInfo :=
  if bgMarker line then
    let p := if p.start_time.isSome then p else { p with start_time := parse_timestamp line }
    { p with end_time := parse_timestamp line }
  else p

/-- The scan of `_extract_background_phase`. -/
def bgScan (lines : List String) : PhaseInfo :=
  lines.foldl bgStep { name := "Background Extraction" }

/-- `_extract_background_phase`. -/
def extract_background_phase (lines : List String) (a : LogAnalysis) : LogAnalysis :=
  appendIfTimed a (bgScan lines)

/-- The registration marker test
(`"seqapplyreg" in line.lower() or "registered sequence" in line.lower()`). -/
def regMarker (line : String) : Bool :=
  listSub "seqapplyreg".toList (lowerList line)
    || listSub "registered sequence".toList (lowerList line)

/-- Loop body of `_extract_registration_phase`. -/
def regStep (p : PhaseInfo) (line : String) : PhaseInfo :=
  if regMarker line then
    let p := if p.start_time.isSome then p else { p with start_time := parse_timestamp line }
    { p with end_time := parse_timestamp line }
  else p

/-- The scan of `_extract_registration_phase`. -/
def regScan (lines : List String) : PhaseInfo :=
  lines.foldl regStep { name := "Registration" }

/-- `_extract_registration_phase`. -/
def extract_registration_phase (lines : List String) (a : LogAnalysis) : LogAnalysis :=
  appendIfTimed a (regScan lines)

/-- The window `range(max(0, i-5), min(len(lines), i+1))` of lines
searched for the stacked-image count at an end marker. -/
def stackWindow (lines : List String) (i : Nat) : List String :=
  (lines.drop (i - 5)).take (i - (i - 5) + 1)

/-- First `(\d+) images have been stacked` match in the window. -/
def stackedCount (lines : List String) (i : Nat) : Option Int :=
  (stackWindow lines i).findSome? (searchNum "" " images have been stacked")

/-- Loop body of `_extract_stacking_phase` (over `enumerate(lines)`).
The state is `Except`-valued: if the rejection regex matches but
`float()` of a captured percentage group raises (modelled by `ddVal`
returning `none`), the uncaught `ValueError` aborts the whole scan
(`.error ()`), which every later iteration propagates. -/
def stackStep (lines : List String) (s : Except Unit (LogAnalysis × PhaseInfo))
    (il : Nat × String) : Except Unit (LogAnalysis × PhaseInfo) :=
  match s with
  | .error u => .error u
  | .ok s =>
    let line := il.2
    if containsSub "Starting stacking" line then
      .ok (s.1, { s.2 with start_time := parse_timestamp line })
    else if containsSub "Stacked sequence successfully" line
        || containsSub "Rejection stacking complete" line then
      let p := { s.2 with end_time := parse_timestamp line }
      match stackedCount lines il.1 with
      | some n => .ok ({ s.1 with final_images := n }, { p with image_count_out := some n })
      | none => .ok (s.1, p)
    else if containsSub "Pixel rejection in channel" line then
      match searchRej line with
      | some chv =>
        match ddVal chv.2.1, ddVal chv.2.2 with
        | some lo, some hi =>
          .ok ({ s.1 with rejection_stats := setChannel s.1.rejection_stats chv.1 lo hi }, s.2)
        | _, _ => .error ()
      | none => .ok s
    else .ok s

/-- The scan of `_extract_stacking_phase`: `.error ()` models the
uncaught `ValueError` escaping the loop. -/
def stackScan (lines : List String) (a : LogAnalysis) :
    Except Unit (LogAnalysis × PhaseInfo) :=
  lines.enum.foldl (stackStep lines) (.ok (a, { name := "Stacking" }))

/-- `_extract_stacking_phase`: on normal completion of the scan the
guarded append runs; a raised `ValueError` propagates to the caller. -/
def extract_stacking_phase (lines : List String) (a : LogAnalysis) :
    Except Unit LogAnalysis :=
  match stackScan lines a with
  | .ok s => .ok (appendIfTimed s.1 s.2)
  | .error u => .error u

/-- Observation of a completed stacking scan: the phase timestamps it
found, or `none` if the scan raised. -/
def stackScanTimes (lines : List String) (a : LogAnalysis) :
    Option (Option Nat × Option Nat) :=
  match stackScan lines a with
  | .ok s => some (s.2.start_time, s.2.end_time)
  | .error _ => none

/-! ## Pattern detection -/

/-- Minimum of a sample list (Python `min`, lists are nonempty at every
call site). -/
def qMin : List ℚ → ℚ
  | [] => 0
  | x :: xs => xs.foldl min x

/-- Maximum of a sample list (Python `max`). -/
def qMax : List ℚ → ℚ
  | [] => 0
  | x :: xs => xs.foldl max x

/-- Sum of a sample list. -/
def qSum (l : List ℚ) : ℚ := l.foldl (· + ·) 0

/-- `_detect_patterns`: runs after all extraction passes and fills
`patterns` in the fixed order of the source. -/
def detect_patterns (a : LogAnalysis) : LogAnalysis :=
  let total := a.plate_solve_successes + a.plate_solve_failures
  { a with patterns :=
      (if a.plate_solve_failures > 0 then
        [Pat.plateSolveFail a.plate_solve_failures
          (if total > 0 then (a.plate_solve_failures : ℚ) / (total : ℚ) * 100 else 0)]
      else [])
      ++ (if a.initial_images > 0 ∧ a.final_images > 0 then
        [Pat.retentionInfo ((a.final_images : ℚ) / (a.initial_images : ℚ) * 100)
          (a.initial_images - a.final_images)]
      else [])
      ++ (if a.fwhm_values ≠ [] then
        [Pat.fwhmRange (qMin a.fwhm_values) (qMax a.fwhm_values)
          (qSum a.fwhm_values / (a.fwhm_values.length : ℚ))]
      else [])
      ++ (if a.rotation_angles ≠ [] ∧ |qMax a.rotation_angles - qMin a.rotation_angles| > 10 then
        [Pat.mosaic (qMin a.rotation_angles) (qMax a.rotation_angles)]
      else [])
      ++ (if a.processors_used > 0 then [Pat.parallel a.processors_used] else [])
      ++ (if a.rejection_stats ≠ [] then [Pat.rejection a.rejection_stats] else []) }

/-! ## Driver (`parse`) -/

/-- `SirilLogParser.parse`.  The file read is the external boundary: its
result is passed in as an `Except` (`.error e` models any read
exception).  On read failure the error is recorded and the
otherwise-default record returned at once (`.ok`, the method itself does
not raise there); on success the five extraction passes and the pattern
detector run in order.  The result is itself `Except`-valued because the
stacking pass can raise an uncaught `ValueError` (malformed rejection
percentage), which propagates out of `parse` and crashes the program
(`.error ()`). -/
def parse (readResult : Except String (List String)) : Except Unit LogAnalysis :=
  match readResult with
  | .error e => .ok { errors := ["Failed to read log file: " ++ e] }
  | .ok lines =>
    let a : LogAnalysis := {}
    let a := extract_initial_info lines a
    let a := extract_conversion_phase lines a
    let a := extract_plate_solve_phase lines a
    let a := extract_background_phase lines a
    let a := extract_registration_phase lines a
    match extract_stacking_phase lines a with
    | .ok a => .ok (detect_patterns a)
    | .error u => .error u

/-! ## Waterfall renderer -/

/-- Python `int()` applied to an exact rational: truncation toward
zero. -/
def ratTrunc (q : ℚ) : Int :=
  if 0 ≤ q.num then ((q.num.toNat / q.den : Nat) : Int)
  else -(((-q.num).toNat / q.den : Nat) : Int)

/-- `make_bar` (closure over `max_count = initial_images`,
`bar_width = 40`): the early return for `max_count == 0`, else
`"█" * int((count / max_count) * width)` (a negative repeat count gives
the empty string, as in Python). -/
def make_bar (maxCount count : Int) : String :=
  if maxCount = 0 then ""
  else String.mk (List.replicate (ratTrunc ((count : ℚ) / (maxCount : ℚ) * 40)).toNat '█')

/-- One rendered waterfall line.  Constructors carry the payloads the
f-strings interpolate. -/
inductive WLine where
  | sep
  | title
  | na (label : String)
  | entry (label : String) (count : Int) (bar : String) (pct : Option ℚ)
  | arrow
  | failedNote (n : Int)
  | rejectedNote (n : Int)
  deriving DecidableEq

/-- `format_line`: `None` counts render as `N/A`, otherwise the count,
the bar and the optional percentage. -/
def format_line (maxCount : Int) (label : String) (count : Option Int) (pct : Option ℚ) : WLine :=
  match count with
  | none => WLine.na label
  | some c => WLine.entry label c (make_bar maxCount c) pct

/-- The waterfall percentage of a count, with its division-by-zero
guard: `(count / initial * 100) if initial > 0 else 0`. -/
def wPct (a : LogAnalysis) (c : Int) : ℚ :=
  if a.initial_images > 0 then (c : ℚ) / (a.initial_images : ℚ) * 100 else 0

/-- The `Initial Images` stage of the waterfall (always emitted, with a
literal percentage of 100). -/
def wInitialBlock (a : LogAnalysis) : List WLine :=
  [format_line a.initial_images "Initial Images" (some a.initial_images) (some 100), WLine.arrow]

/-- The `After Conversion` stage: emitted only if a phase whose name
contains `Conversion` exists and its `image_count_out` is truthy. -/
def wConvBlock (a : LogAnalysis) : List WLine :=
  match a.phases.find? (fun p => containsSub "Conversion" p.name) with
  | some cp =>
    match cp.image_count_out with
    | some n =>
      if n ≠ 0 then
        [format_line a.initial_images "After Conversion" (some n) (some (wPct a n)), WLine.arrow]
      else []
    | none => []
  | none => []

/-- The `After Plate Solving` stage: emitted only if
`plate_solve_successes > 0`. -/
def wPlateBlock (a : LogAnalysis) : List WLine :=
  if a.plate_solve_successes > 0 then
    [format_line a.initial_images "After Plate Solving" (some a.plate_solve_successes)
      (some (wPct a a.plate_solve_successes))]
    ++ (if a.plate_solve_failures > 0 then [WLine.failedNote a.plate_solve_failures] else [])
    ++ [WLine.arrow]
  else []

/-- The `After Registration` stage: emitted only if a phase whose name
contains `Registration` exists; its count is
`image_count_out or plate_solve_successes`. -/
def wRegBlock (a : LogAnalysis) : List WLine :=
  match a.phases.find? (fun p => containsSub "Registration" p.name) with
  | some rp =>
    let c : Int :=
      match rp.image_count_out with
      | some n => if n ≠ 0 then n else a.plate_solve_successes
      | none => a.plate_solve_successes
    [format_line a.initial_images "After Registration" (some c) (some (wPct a c)), WLine.arrow]
  | none => []

/-- The `Final Stacked Images` stage: emitted only if
`final_images > 0`; `pre_stack = plate_solve_successes or
initial_images`. -/
def wFinalBlock (a : LogAnalysis) : List WLine :=
  if a.final_images > 0 then
    [format_line a.initial_images "Final Stacked Images" (some a.final_images)
      (some (wPct a a.final_images))]
    ++ (let preStack := if a.plate_solve_successes ≠ 0 then a.plate_solve_successes
                        else a.initial_images
        if preStack - a.final_images > 0 then [WLine.rejectedNote (preStack - a.final_images)]
        else [])
  else []

/-- `generate_waterfall`. -/
def generate_waterfall (a : LogAnalysis) : List WLine :=
  [WLine.sep, WLine.title, WLine.sep]
  ++ wInitialBlock a ++ wConvBlock a ++ wPlateBlock a ++ wRegBlock a ++ wFinalBlock a
  ++ [WLine.sep]

/-- The count carried by a bar entry. -/
def entryCount : WLine → Option Int
  | WLine.entry _ c _ _ => some c
  | _ => none

/-- The percentage carried by a bar entry. -/
def entryPct : WLine → Option ℚ
  | WLine.entry _ _ _ p => p
  | _ => none

/-- Counts of the proportional-bar entries, top to bottom. -/
def wCounts (a : LogAnalysis) : List Int :=
  (generate_waterfall a).filterMap entryCount

/-- Percentages printed down the waterfall, top to bottom. -/
def wPcts (a : LogAnalysis) : List ℚ :=
  (generate_waterfall a).filterMap entryPct

/-! ## Recommendations and summary renderer -/

/-- One recommendation (`_generate_recommendations` items). -/
inductive Recom where
  | psExcellent (rate : ℚ)
  | psGood (rate : ℚ)
  | psLow (rate : ℚ)
  | retentionNormal (loss : ℚ)
  | retentionWarn (loss : ℚ)
  | retentionHigh (loss : ℚ)
  | fwhmVariation
  | noSpecific
  deriving DecidableEq

/-- The plate-solve recommendation paragraph of
`_generate_recommendations`: threshold bands at 95 and 85 percent,
evaluated only when `plate_solve_successes > 0`. -/
def psRecBlock (a : LogAnalysis) : List Recom :=
  if a.plate_solve_successes > 0 then
    let total := a.plate_solve_successes + a.plate_solve_failures
    let rate := (a.plate_solve_successes : ℚ) / (total : ℚ) * 100
    if rate ≥ 95 then [Recom.psExcellent rate]
    else if rate ≥ 85 then [Recom.psGood rate]
    else [Recom.psLow rate]
  else []

/-- The retention recommendation paragraph: bands at 80 and 60
percent. -/
def retentionRecBlock (a : LogAnalysis) : List Recom :=
  if a.initial_images > 0 ∧ a.final_images > 0 then
    let retention := (a.final_images : ℚ) / (a.initial_images : ℚ) * 100
    let loss := 100 - retention
    if retention ≥ 80 then [Recom.retentionNormal loss]
    else if retention ≥ 60 then [Recom.retentionWarn loss]
    else [Recom.retentionHigh loss]
  else []

/-- The FWHM-variation recommendation paragraph: evaluated only when the
sample list is non-empty and holds strictly more than 10 samples,
flagged when the range exceeds 2 pixels. -/
def fwhmRecBlock (a : LogAnalysis) : List Recom :=
  if a.fwhm_values ≠ [] ∧ a.fwhm_values.length > 10 then
    if qMax a.fwhm_values - qMin a.fwhm_values > 2 then [Recom.fwhmVariation] else []
  else []

/-- `_generate_recommendations`. -/
def generate_recommendations (a : LogAnalysis) : List Recom :=
  let recs := psRecBlock a ++ retentionRecBlock a ++ fwhmRecBlock a
  if recs.isEmpty then [Recom.noSpecific] else recs

/-- One rendered summary line. -/
inductive SLine where
  | blank
  | sep
  | header (s : String)
  | dash
  | totalDur (d : Int)
  | phaseDur (nm : String) (d : Int) (pct : ℚ)
  | noTotalDur
  | noTimingInfo
  | waterfallBlock (w : List WLine)
  | qInitial (n : Int)
  | qFinal (n : Int)
  | qRetention (r : ℚ)
  | qPlateSolve (r : ℚ)
  | qFwhm (mn mx : ℚ)
  | qRejection (st : List (Nat × ℚ × ℚ))
  | patternLine (p : Pat)
  | recLine (r : Recom)
  deriving DecidableEq

/-- `total_duration`: sum of the truthy phase durations (a zero
`timedelta` is falsy in Python and contributes nothing). -/
def totalDuration (a : LogAnalysis) : Int :=
  a.phases.foldl (fun t p =>
    match p.duration with
    | some d => if d ≠ 0 then t + d else t
    | none => t) 0

/-- `generate_summary`. -/
def generate_summary (a : LogAnalysis) : List SLine :=
  let total := totalDuration a
  [SLine.blank, SLine.sep, SLine.header "PROCESSING SUMMARY REPORT", SLine.sep, SLine.blank,
   SLine.header "[1] EXECUTION TIMES", SLine.dash]
  ++ (if total > 0 then
      [SLine.totalDur total]
      ++ a.phases.filterMap (fun p =>
        match p.duration with
        | some d =>
          if d ≠ 0 then some (SLine.phaseDur p.name d ((d : ℚ) / (total : ℚ) * 100)) else none
        | none => none)
    else [SLine.noTotalDur, SLine.noTimingInfo])
  ++ [SLine.blank, SLine.header "[2] IMAGE PROCESSING WATERFALL", SLine.dash,
      SLine.waterfallBlock (generate_waterfall a), SLine.blank,
      SLine.header "[3] QUALITY METRICS", SLine.dash,
      SLine.qInitial a.initial_images, SLine.qFinal a.final_images]
  ++ (if a.initial_images > 0 ∧ a.final_images > 0 then
      [SLine.qRetention ((a.final_images : ℚ) / (a.initial_images : ℚ) * 100)]
    else [])
  ++ (if a.plate_solve_successes > 0 then
      [SLine.qPlateSolve ((a.plate_solve_successes : ℚ)
        / ((a.plate_solve_successes + a.plate_solve_failures : Int) : ℚ) * 100)]
    else [])
  ++ (if a.fwhm_values ≠ [] then [SLine.qFwhm (qMin a.fwhm_values) (qMax a.fwhm_values)] else [])
  ++ (if a.rejection_stats ≠ [] then [SLine.qRejection a.rejection_stats] else [])
  ++ [SLine.blank]
  ++ (if a.patterns ≠ [] then
      [SLine.header "[4] PATTERNS DETECTED", SLine.dash]
      ++ a.patterns.map SLine.patternLine ++ [SLine.blank]
    else [])
  ++ [SLine.header "[5] RECOMMENDATIONS", SLine.dash]
  ++ (generate_recommendations a).map SLine.recLine
  ++ [SLine.blank, SLine.sep]

/-! ## Division traces

Every division the two renderers evaluate, with the denominator it is
evaluated at, following exactly the guards of the source.  These let the
guarding claims be stated: a denominator of zero in the trace is a
`ZeroDivisionError` in the Python source. -/

/-- Denominators evaluated by one `make_bar` call (the `max_count == 0`
early return evaluates none). -/
def make_bar_divisors (maxCount : Int) : List ℚ :=
  if maxCount = 0 then [] else [(maxCount : ℚ)]

/-- Denominators evaluated by `generate_waterfall`, in evaluation
order. -/
def waterfall_divisors (a : LogAnalysis) : List ℚ :=
  let mc := a.initial_images
  let pctDiv : List ℚ :=
    if a.initial_images > 0 then [((a.initial_images : Int) : ℚ)] else []
  make_bar_divisors mc
  ++ (match a.phases.find? (fun p => containsSub "Conversion" p.name) with
    | some cp =>
      match cp.image_count_out with
      | some n => if n ≠ 0 then pctDiv ++ make_bar_divisors mc else []
      | none => []
    | none => [])
  ++ (if a.plate_solve_successes > 0 then pctDiv ++ make_bar_divisors mc else [])
  ++ (match a.phases.find? (fun p => containsSub "Registration" p.name) with
    | some _ => pctDiv ++ make_bar_divisors mc
    | none => [])
  ++ (if a.final_images > 0 then pctDiv ++ make_bar_divisors mc else [])

/-- Denominators evaluated by `_generate_recommendations`. -/
def recommendation_divisors (a : LogAnalysis) : List ℚ :=
  (if a.plate_solve_successes > 0 then
    [((a.plate_solve_successes + a.plate_solve_failures : Int) : ℚ)]
  else [])
  ++ (if a.initial_images > 0 ∧ a.final_images > 0 then [((a.initial_images : Int) : ℚ)] else [])

/-- Denominators evaluated by `generate_summary` (which renders the
waterfall and the recommendations as well). -/
def summary_divisors (a : LogAnalysis) : List ℚ :=
  let total := totalDuration a
  (if total > 0 then
    a.phases.filterMap (fun p =>
      match p.duration with
      | some d => if d ≠ 0 then some ((total : ℚ)) else none
      | none => none)
  else [])
  ++ waterfall_divisors a
  ++ (if a.initial_images > 0 ∧ a.final_images > 0 then [((a.initial_images : Int) : ℚ)] else [])
  ++ (if a.plate_solve_successes > 0 then
      [((a.plate_solve_successes + a.plate_solve_failures : Int) : ℚ)]
    else [])
  ++ recommendation_divisors a

/-! ## Branch predicates of the extraction loops

One predicate per `if`/`elif` branch that touches a phase timestamp,
with the earlier branches of the chain negated exactly as `elif`
requires. -/

/-- Lines taking the conversion start branch. -/
def convStartB (line : String) : Bool := containsSub "Convert: processing" line

/-- Lines taking the conversion end branch. -/
def convEndB (line : String) : Bool :=
  !containsSub "Convert: processing" line
    && (containsSub "Converted" line && containsSub "files for processing" line)

/-- Lines taking one of the two per-image plate-solve counter branches
(these are the branches that may set the phase start). -/
def psCountB (line : String) : Bool :=
  containsSub "platesolved and updated" line || containsSub "did not solve" line

/-- Lines taking any of the three plate-solve branches (all of which set
the phase end). -/
def psAnyB (line : String) : Bool :=
  containsSub "platesolved and updated" line || containsSub "did not solve" line
    || containsSub "images successfully platesolved out of" line

/-- Lines taking the stacking start branch. -/
def stackStartB (line : String) : Bool := containsSub "Starting stacking" line

/-- Lines taking the stacking end branch. -/
def stackEndB (line : String) : Bool :=
  !containsSub "Starting stacking" line
    && (containsSub "Stacked sequence successfully" line
        || containsSub "Rejection stacking complete" line)

/-! ## Reference forms of the timestamp updates -/

/-- Unguarded timestamp assignment, per scanned item:
`phase.t = parse(x)` whenever `p x`. -/
def updU (p : α → Bool) (tm : α → Option Nat) (t : Option Nat) (x : α) : Option Nat :=
  if p x then tm x else t

/-- Guarded timestamp assignment, per scanned item:
`if not phase.t: phase.t = parse(x)` whenever `p x`. -/
def updG (p : α → Bool) (tm : α → Option Nat) (t : Option Nat) (x : α) : Option Nat :=
  if p x then
    match t with
    | some v => some v
    | none => tm x
  else t

/-- The timestamp of the last line matching `p` (`none` if no line
matches, or if that line carries no timestamp). -/
def lastMatchParse (p : String → Bool) (lines : List String) : Option Nat :=
  match (lines.filter p).getLast? with
  | some l => parse_timestamp l
  | none => none

/-- The first timestamp carried by a line matching `p` (`none` if no
matching line carries one). -/
def firstMatchParse (p : String → Bool) (lines : List String) : Option Nat :=
  (lines.filter p).findSome? parse_timestamp

/-- The evolution of `(solved_count, failed_count)` per scanned line. -/
def cntStep (sc : Int × Int) (line : String) : Int × Int :=
  if containsSub "platesolved and updated" line then (sc.1 + 1, sc.2)
  else if containsSub "did not solve" line then (sc.1, sc.2 + 1)
  else if containsSub "images successfully platesolved out of" line then
    match psSummaryNums line with
    | some nm => (nm.1, nm.2 - nm.1)
    | none => sc
  else sc

/-! ## Specification-side definitions (written from the claims) -/

/-- The character of a decimal digit value. -/
def dChar (n : Nat) : Char := Char.ofNat (48 + n)

/-- Written from the claim: the line begins (at position 0) with a
token `HH:MM:SS:` carrying a valid 24-hour time, and `t` is that time of
day in seconds. -/
def validTimeToken (line : String) (t : Nat) : Prop :=
  ∃ h m s rest, h < 24 ∧ m < 60 ∧ s < 60 ∧
    line.toList = dChar (h / 10) :: dChar (h % 10) :: ':' :: dChar (m / 10) :: dChar (m % 10)
      :: ':' :: dChar (s / 10) :: dChar (s % 10) :: ':' :: rest ∧
    t = h * 3600 + m * 60 + s

/-- The amended statement of claim C2, for one line sequence and one
incoming record: each of the four non-stacking extractors appends its
phase exactly when the scan found both timestamps; the stacking
extractor does so whenever its scan completes normally, and propagates
the uncaught `ValueError` (appending nothing) when it does not; every
appended phase carries a duration, and a rendered execution-time entry
always comes from a phase in the list. -/
def PhaseAppendProp (lines : List String) (a : LogAnalysis) : Prop :=
  ((extract_conversion_phase lines a).phases ≠ a.phases
    ↔ ((convScan lines a).2.start_time.isSome ∧ (convScan lines a).2.end_time.isSome))
  ∧ (∀ q ∈ (extract_conversion_phase lines a).phases,
      q ∈ a.phases ∨ (q.start_time.isSome ∧ q.end_time.isSome ∧ q.duration.isSome))
  ∧ ((extract_plate_solve_phase lines a).phases ≠ a.phases
    ↔ ((psScan lines a).p.start_time.isSome ∧ (psScan lines a).p.end_time.isSome))
  ∧ (∀ q ∈ (extract_plate_solve_phase lines a).phases,
      q ∈ a.phases ∨ (q.start_time.isSome ∧ q.end_time.isSome ∧ q.duration.isSome))
  ∧ ((extract_background_phase lines a).phases ≠ a.phases
    ↔ ((bgScan lines).start_time.isSome ∧ (bgScan lines).end_time.isSome))
  ∧ (∀ q ∈ (extract_background_phase lines a).phases,
      q ∈ a.phases ∨ (q.start_time.isSome ∧ q.end_time.isSome ∧ q.duration.isSome))
  ∧ ((extract_registration_phase lines a).phases ≠ a.phases
    ↔ ((regScan lines).start_time.isSome ∧ (regScan lines).end_time.isSome))
  ∧ (∀ q ∈ (extract_registration_phase lines a).phases,
      q ∈ a.phases ∨ (q.start_time.isSome ∧ q.end_time.isSome ∧ q.duration.isSome))
  ∧ (∀ (b : LogAnalysis) (p : PhaseInfo), stackScan lines a = Except.ok (b, p) →
      extract_stacking_phase lines a = Except.ok (appendIfTimed b p)
      ∧ ((appendIfTimed b p).phases ≠ a.phases
          ↔ (p.start_time.isSome ∧ p.end_time.isSome))
      ∧ ∀ q ∈ (appendIfTimed b p).phases,
          q ∈ a.phases ∨ (q.start_time.isSome ∧ q.end_time.isSome ∧ q.duration.isSome))
  ∧ (stackScan lines a = Except.error ()
      → extract_stacking_phase lines a = Except.error ())
  ∧ (∀ (b : LogAnalysis) (nm : String) (d : Int) (pc : ℚ),
      SLine.phaseDur nm d pc ∈ generate_summary b
        → ∃ q ∈ b.phases, q.name = nm ∧ q.duration = some d)

/-- The amended statement of claim C3, for one line sequence and one
incoming record: the guarded starts (plate solving, background,
registration) take the first parseable timestamp among matching lines;
the unguarded starts (conversion, stacking) take the timestamp of the
last start-marker line; every end takes the timestamp of the last
matching line.  All are `none` when no line matches.  The stacking
equalities are stated for every normally completing scan: a malformed
rejection percentage instead raises, producing no timestamps at all. -/
def PhaseTimesProp (lines : List String) (a : LogAnalysis) : Prop :=
  (convScan lines a).2.start_time = lastMatchParse convStartB lines
  ∧ (convScan lines a).2.end_time = lastMatchParse convEndB lines
  ∧ (psScan lines a).p.start_time = firstMatchParse psCountB lines
  ∧ (psScan lines a).p.end_time = lastMatchParse psAnyB lines
  ∧ (bgScan lines).start_time = firstMatchParse bgMarker lines
  ∧ (bgScan lines).end_time = lastMatchParse bgMarker lines
  ∧ (regScan lines).start_time = firstMatchParse regMarker lines
  ∧ (regScan lines).end_time = lastMatchParse regMarker lines
  ∧ (∀ (b : LogAnalysis) (p : PhaseInfo), stackScan lines a = Except.ok (b, p) →
      p.start_time = lastMatchParse stackStartB lines
      ∧ p.end_time = lastMatchParse stackEndB lines)

/-- A demonstration record: a conversion stage of 5 images but 8
plate-solve successes out of 10 initial images. -/
def aWaterfallDemo : LogAnalysis :=
  { initial_images := 10,
    phases := [{ name := "File Conversion", image_count_out := some 5 }],
    plate_solve_successes := 8 }

/-- A well-formed demonstration record for the renderer guards. -/
def aGuardDemo : LogAnalysis :=
  { initial_images := 10,
    final_images := 5,
    plate_solve_successes := 4,
    plate_solve_failures := 1 }

/-! ## Fold characterization lemmas -/

theorem foldl_updU_eq (p : α → Bool) (tm : α → Option Nat) :
    ∀ (l : List α) (t0 : Option Nat),
      l.foldl (updU p tm) t0 =
        match (l.filter p).getLast? with
        | some x => tm x
        | none => t0 := by
  intro l
  induction l with
  | nil => intro t0; simp
  | cons x xs ih =>
    intro t0
    by_cases hx : p x
    · rw [List.foldl_cons, ih, List.filter_cons_of_pos hx]
      cases hfl : xs.filter p with
      | nil => simp [updU, hx]
      | cons y ys =>
        rw [List.getLast?_cons_cons]
        cases hg : (y :: ys).getLast? with
        | none => simp at hg
        | some z => rfl
    · rw [List.foldl_cons, ih, List.filter_cons_of_neg hx]
      have hu : updU p tm t0 x = t0 := by simp [updU, hx]
      rw [hu]

theorem foldl_updG_eq (p : α → Bool) (tm : α → Option Nat) :
    ∀ (l : List α) (t0 : Option Nat),
      l.foldl (updG p tm) t0 =
        match t0 with
        | some v => some v
        | none => (l.filter p).findSome? tm := by
  intro l
  induction l with
  | nil => intro t0; cases t0 <;> simp
  | cons x xs ih =>
    intro t0
    by_cases hx : p x
    · cases t0 with
      | some v => rw [List.foldl_cons, ih]; simp [updG, hx]
      | none =>
        rw [List.foldl_cons, ih, List.filter_cons_of_pos hx, List.findSome?_cons]
        cases htm : tm x <;> simp [updG, hx, htm]
    · cases t0 with
      | some v => rw [List.foldl_cons, ih]; simp [updG, hx]
      | none => rw [List.foldl_cons, ih, List.filter_cons_of_neg hx]; simp [updG, hx]

theorem foldl_const (l : List α) (x : β) : l.foldl (fun t _ => t) x = x := by
  induction l with
  | nil => rfl
  | cons y ys _ => simp

/-! ## Projection lemmas for the scan loops -/

theorem convStep_start (s : LogAnalysis × PhaseInfo) (line : String) :
    (convStep s line).2.start_time = updU convStartB parse_timestamp s.2.start_time line := by
  simp only [convStep, updU, convStartB]
  by_cases h1 : containsSub "Convert: processing" line
  · simp only [h1, if_true]
    cases searchNum "processing " " files" line <;> simp
  · simp only [h1, Bool.false_eq_true, if_false]
    by_cases h2 : (containsSub "Converted" line && containsSub "files for processing" line) = true
    · simp only [h2, if_true]
      cases searchNum "Converted " "" line <;> simp
    · simp only [h2, Bool.false_eq_true, if_false]

theorem convStep_end (s : LogAnalysis × PhaseInfo) (line : String) :
    (convStep s line).2.end_time = updU convEndB parse_timestamp s.2.end_time line := by
  simp only [convStep, updU, convEndB]
  by_cases h1 : containsSub "Convert: processing" line
  · simp only [h1, if_true, Bool.not_true, Bool.false_and, Bool.false_eq_true, if_false]
    cases searchNum "processing " " files" line <;> simp
  · simp only [h1, Bool.false_eq_true, if_false, Bool.not_false, Bool.true_and]
    by_cases h2 : (containsSub "Converted" line && containsSub "files for processing" line) = true
    · simp only [h2, if_true]
      cases searchNum "Converted " "" line <;> simp
    · simp only [h2, Bool.false_eq_true, if_false]

theorem convStep_phases (s : LogAnalysis × PhaseInfo) (line : String) :
    (convStep s line).1.phases = s.1.phases := by
  simp only [convStep]
  by_cases h1 : containsSub "Convert: processing" line
  · simp only [h1, if_true]
    cases searchNum "processing " " files" line <;> split_ifs <;> simp
  · simp only [h1, Bool.false_eq_true, if_false]
    by_cases h2 : (containsSub "Converted" line && containsSub "files for processing" line) = true
    · simp only [h2, if_true]
      cases searchNum "Converted " "" line <;> simp
    · simp only [h2, Bool.false_eq_true, if_false]

theorem convScan_start (lines : List String) (a : LogAnalysis) :
    (convScan lines a).2.start_time = lastMatchParse convStartB lines := by
  unfold convScan lastMatchParse
  rw [← List.foldl_hom (fun s : LogAnalysis × PhaseInfo => s.2.start_time) convStep
    (updU convStartB parse_timestamp) lines (a, { name := "File Conversion" })
    (fun s l => (convStep_start s l).symm)]
  rw [foldl_updU_eq]
  cases (lines.filter convStartB).getLast? <;> rfl

theorem convScan_end (lines : List String) (a : LogAnalysis) :
    (convScan lines a).2.end_time = lastMatchParse convEndB lines := by
  unfold convScan lastMatchParse
  rw [← List.foldl_hom (fun s : LogAnalysis × PhaseInfo => s.2.end_time) convStep
    (updU convEndB parse_timestamp) lines (a, { name := "File Conversion" })
    (fun s l => (convStep_end s l).symm)]
  rw [foldl_updU_eq]
  cases (lines.filter convEndB).getLast? <;> rfl

theorem convScan_phases (lines : List String) (a : LogAnalysis) :
    (convScan lines a).1.phases = a.phases := by
  unfold convScan
  rw [← List.foldl_hom (fun s : LogAnalysis × PhaseInfo => s.1.phases) convStep
    (fun t _ => t) lines (a, { name := "File Conversion" })
    (fun s l => (convStep_phases s l).symm)]
  exact foldl_const _ _

theorem psStep_p_start (s : PsState) (line : String) :
    (psStep s line).p.start_time = updG psCountB parse_timestamp s.p.start_time line := by
  simp only [psStep, updG, psCountB]
  by_cases h1 : containsSub "platesolved and updated" line
  · simp only [h1, if_true, Bool.true_or]
    cases hs : s.p.start_time <;>
      cases searchDec "FWHM " line <;> cases searchRot line <;> simp [hs]
  · by_cases h2 : containsSub "did not solve" line
    · simp only [h1, h2, Bool.false_eq_true, if_false, if_true, Bool.false_or, Bool.true_or]
      cases hs : s.p.start_time <;>
        cases searchDec "FWHM " line <;> cases searchRot line <;> simp [hs]
    · by_cases h3 : containsSub "images successfully platesolved out of" line
      · simp only [h1, h2, h3, Bool.false_eq_true, if_false, if_true, Bool.false_or]
        cases psSummaryNums line <;>
          cases searchDec "FWHM " line <;> cases searchRot line <;> simp
      · simp only [h1, h2, h3, Bool.false_eq_true, if_false, Bool.false_or]
        cases searchDec "FWHM " line <;> cases searchRot line <;> simp

theorem psStep_p_end (s : PsState) (line : String) :
    (psStep s line).p.end_time = updU psAnyB parse_timestamp s.p.end_time line := by
  simp only [psStep, updU, psAnyB]
  by_cases h1 : containsSub "platesolved and updated" line
  · simp only [h1, if_true, Bool.true_or]
    cases hs : s.p.start_time.isSome <;>
      cases searchDec "FWHM " line <;> cases searchRot line <;> simp [hs]
  · by_cases h2 : containsSub "did not solve" line
    · simp only [h1, h2, Bool.false_eq_true, if_false, if_true, Bool.false_or, Bool.true_or]
      cases hs : s.p.start_time.isSome <;>
        cases searchDec "FWHM " line <;> cases searchRot line <;> simp [hs]
    · by_cases h3 : containsSub "images successfully platesolved out of" line
      · simp only [h1, h2, h3, Bool.false_eq_true, if_false, if_true, Bool.false_or]
        cases psSummaryNums line <;>
          cases searchDec "FWHM " line <;> cases searchRot line <;> simp
      · simp only [h1, h2, h3, Bool.false_eq_true, if_false, Bool.false_or]
        cases searchDec "FWHM " line <;> cases searchRot line <;> simp

theorem psStep_counts (s : PsState) (line : String) :
    ((psStep s line).solved, (psStep s line).failed) = cntStep (s.solved, s.failed) line := by
  simp only [psStep, cntStep]
  by_cases h1 : containsSub "platesolved and updated" line
  · simp only [h1, if_true]
    cases hs : s.p.start_time.isSome <;>
      cases searchDec "FWHM " line <;> cases searchRot line <;> simp [hs]
  · by_cases h2 : containsSub "did not solve" line
    · simp only [h1, h2, Bool.false_eq_true, if_false, if_true]
      cases hs : s.p.start_time.isSome <;>
        cases searchDec "FWHM " line <;> cases searchRot line <;> simp [hs]
    · by_cases h3 : containsSub "images successfully platesolved out of" line
      · simp only [h1, h2, h3, Bool.false_eq_true, if_false, if_true]
        cases psSummaryNums line <;>
          cases searchDec "FWHM " line <;> cases searchRot line <;> simp
      · simp only [h1, h2, h3, Bool.false_eq_true, if_false]
        cases searchDec "FWHM " line <;> cases searchRot line <;> simp

theorem psStep_a_phases (s : PsState) (line : String) :
    (psStep s line).a.phases = s.a.phases := by
  simp only [psStep]
  by_cases h1 : containsSub "platesolved and updated" line
  · simp only [h1, if_true]
    cases hs : s.p.start_time.isSome <;>
      cases searchDec "FWHM " line <;> cases searchRot line <;> simp [hs]
  · by_cases h2 : containsSub "did not solve" line
    · simp only [h1, h2, Bool.false_eq_true, if_false, if_true]
      cases hs : s.p.start_time.isSome <;>
        cases searchDec "FWHM " line <;> cases searchRot line <;> simp [hs]
    · by_cases h3 : containsSub "images successfully platesolved out of" line
      · simp only [h1, h2, h3, Bool.false_eq_true, if_false, if_true]
        cases psSummaryNums line <;>
          cases searchDec "FWHM " line <;> cases searchRot line <;> simp
      · simp only [h1, h2, h3, Bool.false_eq_true, if_false]
        cases searchDec "FWHM " line <;> cases searchRot line <;> simp

theorem psScan_p_start (lines : List String) (a : LogAnalysis) :
    (psScan lines a).p.start_time = firstMatchParse psCountB lines := by
  unfold psScan firstMatchParse
  rw [← List.foldl_hom (fun s : PsState => s.p.start_time) psStep
    (updG psCountB parse_timestamp) lines (PsState.mk a { name := "Plate Solving" } 0 0)
    (fun s l => (psStep_p_start s l).symm)]
  rw [foldl_updG_eq]

theorem psScan_p_end (lines : List String) (a : LogAnalysis) :
    (psScan lines a).p.end_time = lastMatchParse psAnyB lines := by
  unfold psScan lastMatchParse
  rw [← List.foldl_hom (fun s : PsState => s.p.end_time) psStep
    (updU psAnyB parse_timestamp) lines (PsState.mk a { name := "Plate Solving" } 0 0)
    (fun s l => (psStep_p_end s l).symm)]
  rw [foldl_updU_eq]
  cases (lines.filter psAnyB).getLast? <;> rfl

theorem psScan_counts (lines : List String) (a : LogAnalysis) :
    ((psScan lines a).solved, (psScan lines a).failed) = lines.foldl cntStep (0, 0) := by
  unfold psScan
  rw [← List.foldl_hom (fun s : PsState => (s.solved, s.failed)) psStep cntStep lines
    (PsState.mk a { name := "Plate Solving" } 0 0) (fun s l => (psStep_counts s l).symm)]

theorem psScan_a_phases (lines : List String) (a : LogAnalysis) :
    (psScan lines a).a.phases = a.phases := by
  unfold psScan
  rw [← List.foldl_hom (fun s : PsState => s.a.phases) psStep (fun t _ => t) lines
    (PsState.mk a { name := "Plate Solving" } 0 0) (fun s l => (psStep_a_phases s l).symm)]
  exact foldl_const _ _

theorem bgStep_start (p : PhaseInfo) (line : String) :
    (bgStep p line).start_time = updG bgMarker parse_timestamp p.start_time line := by
  simp only [bgStep, updG]
  by_cases h : bgMarker line
  · cases hs : p.start_time <;> simp [h, hs]
  · simp [h]

theorem bgStep_end (p : PhaseInfo) (line : String) :
    (bgStep p line).end_time = updU bgMarker parse_timestamp p.end_time line := by
  simp only [bgStep, updU]
  by_cases h : bgMarker line
  · cases hs : p.start_time.isSome <;> simp [h, hs]
  · simp [h]

theorem bgScan_start (lines : List String) :
    (bgScan lines).start_time = firstMatchParse bgMarker lines := by
  unfold bgScan firstMatchParse
  rw [← List.foldl_hom PhaseInfo.start_time bgStep (updG bgMarker parse_timestamp) lines
    { name := "Background Extraction" } (fun p l => (bgStep_start p l).symm)]
  rw [foldl_updG_eq]

theorem bgScan_end (lines : List String) :
    (bgScan lines).end_time = lastMatchParse bgMarker lines := by
  unfold bgScan lastMatchParse
  rw [← List.foldl_hom PhaseInfo.end_time bgStep (updU bgMarker parse_timestamp) lines
    { name := "Background Extraction" } (fun p l => (bgStep_end p l).symm)]
  rw [foldl_updU_eq]
  cases (lines.filter bgMarker).getLast? <;> rfl

theorem regStep_start (p : PhaseInfo) (line : String) :
    (regStep p line).start_time = updG regMarker parse_timestamp p.start_time line := by
  simp only [regStep, updG]
  by_cases h : regMarker line
  · cases hs : p.start_time <;> simp [h, hs]
  · simp [h]

theorem regStep_end (p : PhaseInfo) (line : String) :
    (regStep p line).end_time = updU regMarker parse_timestamp p.end_time line := by
  simp only [regStep, updU]
  by_cases h : regMarker line
  · cases hs : p.start_time.isSome <;> simp [h, hs]
  · simp [h]

theorem regScan_start (lines : List String) :
    (regScan lines).start_time = firstMatchParse regMarker lines := by
  unfold regScan firstMatchParse
  rw [← List.foldl_hom PhaseInfo.start_time regStep (updG regMarker parse_timestamp) lines
    { name := "Registration" } (fun p l => (regStep_start p l).symm)]
  rw [foldl_updG_eq]

theorem regScan_end (lines : List String) :
    (regScan lines).end_time = lastMatchParse regMarker lines := by
  unfold regScan lastMatchParse
  rw [← List.foldl_hom PhaseInfo.end_time regStep (updU regMarker parse_timestamp) lines
    { name := "Registration" } (fun p l => (regStep_end p l).symm)]
  rw [foldl_updU_eq]
  cases (lines.filter regMarker).getLast? <;> rfl

theorem foldl_stackStep_err (lines : List String) (u : Unit) (l : List (Nat × String)) :
    l.foldl (stackStep lines) (Except.error u) = Except.error u := by
  induction l with
  | nil => rfl
  | cons x xs ih => rw [List.foldl_cons]; exact ih

theorem stackStep_ok (lines : List String) (s0 : LogAnalysis × PhaseInfo) (il : Nat × String) :
    stackStep lines (Except.ok s0) il = Except.error ()
    ∨ ∃ s1 : LogAnalysis × PhaseInfo, stackStep lines (Except.ok s0) il = Except.ok s1
        ∧ s1.2.start_time
            = updU (fun j : Nat × String => stackStartB j.2) (fun j => parse_timestamp j.2)
                s0.2.start_time il
        ∧ s1.2.end_time
            = updU (fun j : Nat × String => stackEndB j.2) (fun j => parse_timestamp j.2)
                s0.2.end_time il
        ∧ s1.1.phases = s0.1.phases := by
  by_cases h1 : containsSub "Starting stacking" il.2
  · right
    simp only [stackStep, h1, if_true]
    refine ⟨_, rfl, ?_, ?_, rfl⟩ <;> simp [updU, stackStartB, stackEndB, h1]
  · by_cases h2 : (containsSub "Stacked sequence successfully" il.2
        || containsSub "Rejection stacking complete" il.2) = true
    · right
      simp only [stackStep, h1, h2, Bool.false_eq_true, if_false, if_true]
      cases stackedCount lines il.1 <;>
        · refine ⟨_, rfl, ?_, ?_, rfl⟩ <;> simp [updU, stackStartB, stackEndB, h1, h2]
    · by_cases h3 : containsSub "Pixel rejection in channel" il.2
      · simp only [stackStep, h1, h2, h3, Bool.false_eq_true, if_false, if_true]
        split
        · split
          · right
            refine ⟨_, rfl, ?_, ?_, rfl⟩ <;> simp [updU, stackStartB, stackEndB, h1, h2]
          · left; rfl
        · right
          refine ⟨_, rfl, ?_, ?_, rfl⟩ <;> simp [updU, stackStartB, stackEndB, h1, h2]
      · right
        simp only [stackStep, h1, h2, h3, Bool.false_eq_true, if_false]
        refine ⟨_, rfl, ?_, ?_, rfl⟩ <;> simp [updU, stackStartB, stackEndB, h1, h2, h3]

theorem enum_filter_last (q : String → Bool) (lines : List String) :
    (match (lines.enum.filter (fun il => q il.2)).getLast? with
     | some il => parse_timestamp il.2
     | none => none) = lastMatchParse q lines := by
  have h1 : lines.filter q = (lines.enum.filter (fun il => q il.2)).map Prod.snd := by
    conv_lhs => rw [← List.enum_map_snd lines]
    rw [List.filter_map]
    rfl
  unfold lastMatchParse
  rw [h1, List.getLast?_map]
  cases (lines.enum.filter (fun il => q il.2)).getLast? <;> rfl

theorem stackFold_ok_inv (lines : List String) (l : List (Nat × String)) :
    ∀ (s0 : LogAnalysis × PhaseInfo) (b : LogAnalysis) (p : PhaseInfo),
      l.foldl (stackStep lines) (Except.ok s0) = Except.ok (b, p) →
      p.start_time
          = l.foldl (updU (fun j : Nat × String => stackStartB j.2)
              (fun j => parse_timestamp j.2)) s0.2.start_time
        ∧ p.end_time
          = l.foldl (updU (fun j : Nat × String => stackEndB j.2)
              (fun j => parse_timestamp j.2)) s0.2.end_time
        ∧ b.phases = s0.1.phases := by
  induction l with
  | nil =>
    intro s0 b p h
    simp only [List.foldl_nil, Except.ok.injEq] at h
    rw [h]
    exact ⟨rfl, rfl, rfl⟩
  | cons x xs ih =>
    intro s0 b p h
    rw [List.foldl_cons] at h
    rcases stackStep_ok lines s0 x with herr | ⟨s1, hs1, h1, h2, h3⟩
    · rw [herr, foldl_stackStep_err] at h
      exact absurd h (by simp)
    · rw [hs1] at h
      obtain ⟨ih1, ih2, ih3⟩ := ih s1 b p h
      simp only [List.foldl_cons]
      exact ⟨by rw [ih1, h1], by rw [ih2, h2], ih3.trans h3⟩

theorem stackScan_ok_times (lines : List String) (a b : LogAnalysis) (p : PhaseInfo)
    (h : stackScan lines a = Except.ok (b, p)) :
    p.start_time = lastMatchParse stackStartB lines
    ∧ p.end_time = lastMatchParse stackEndB lines
    ∧ b.phases = a.phases := by
  obtain ⟨h1, h2, h3⟩ := stackFold_ok_inv lines lines.enum (a, { name := "Stacking" }) b p h
  refine ⟨?_, ?_, h3⟩
  · rw [h1, foldl_updU_eq, ← enum_filter_last stackStartB lines]
    cases (lines.enum.filter (fun il => stackStartB il.2)).getLast? <;> rfl
  · rw [h2, foldl_updU_eq, ← enum_filter_last stackEndB lines]
    cases (lines.enum.filter (fun il => stackEndB il.2)).getLast? <;> rfl

/-! ## Lemmas about the append-if-timed tail -/

theorem appendIfTimed_phases_ne (a : LogAnalysis) (p : PhaseInfo) :
    (appendIfTimed a p).phases ≠ a.phases ↔ (p.start_time.isSome ∧ p.end_time.isSome) := by
  cases hs : p.start_time <;> cases he : p.end_time <;> simp [appendIfTimed, hs, he]

theorem appendIfTimed_mem (a : LogAnalysis) (p : PhaseInfo) :
    ∀ q ∈ (appendIfTimed a p).phases,
      q ∈ a.phases ∨ (q.start_time.isSome ∧ q.end_time.isSome ∧ q.duration.isSome) := by
  intro q hq
  cases hs : p.start_time with
  | none => simp only [appendIfTimed, hs] at hq; exact Or.inl hq
  | some st =>
    cases he : p.end_time with
    | none => simp only [appendIfTimed, hs, he] at hq; exact Or.inl hq
    | some en =>
      simp only [appendIfTimed, hs, he, List.mem_append, List.mem_singleton] at hq
      rcases hq with hq | hq
      · exact Or.inl hq
      · subst hq; exact Or.inr (by simp [hs, he])

theorem appendIfTimed_fields (a : LogAnalysis) (p : PhaseInfo) :
    (appendIfTimed a p).plate_solve_successes = a.plate_solve_successes
    ∧ (appendIfTimed a p).plate_solve_failures = a.plate_solve_failures := by
  cases hs : p.start_time <;> cases he : p.end_time <;> simp [appendIfTimed, hs, he]

theorem extract_pair (A : LogAnalysis) (p : PhaseInfo) (base : List PhaseInfo)
    (hA : A.phases = base) :
    ((appendIfTimed A p).phases ≠ base ↔ (p.start_time.isSome ∧ p.end_time.isSome))
    ∧ ∀ q ∈ (appendIfTimed A p).phases,
        q ∈ base ∨ (q.start_time.isSome ∧ q.end_time.isSome ∧ q.duration.isSome) := by
  rw [← hA]
  exact ⟨appendIfTimed_phases_ne A p, appendIfTimed_mem A p⟩

theorem mem_if_nil {c : Prop} [Decidable c] {x : α} {A : List α} :
    (x ∈ if c then A else []) ↔ (c ∧ x ∈ A) := by
  split_ifs with hc <;> simp [hc]

/-- A rendered execution-time entry always originates from a phase of
the record's phase list with that name and duration. -/
theorem phaseDur_mem_summary (b : LogAnalysis) (nm : String) (d : Int) (pc : ℚ)
    (h : SLine.phaseDur nm d pc ∈ generate_summary b) :
    ∃ q ∈ b.phases, q.name = nm ∧ q.duration = some d := by
  simp only [generate_summary] at h
  by_cases ht : totalDuration b > 0
  · rw [if_pos ht] at h
    simp only [mem_if_nil, List.mem_append, List.mem_cons, List.mem_singleton,
      List.mem_filterMap, List.mem_map, List.not_mem_nil, or_false, false_or,
      reduceCtorEq, exists_false, and_false, false_and] at h
    rcases h with ⟨p, hp, hmatch⟩
    cases hd : p.duration with
    | none => exact absurd hmatch (by simp [hd])
    | some dd =>
      simp only [hd] at hmatch
      by_cases hz : dd ≠ 0
      · rw [if_pos hz] at hmatch
        simp only [Option.some.injEq, SLine.phaseDur.injEq] at hmatch
        exact ⟨p, hp, hmatch.1, by rw [hd, hmatch.2.1]⟩
      · rw [if_neg hz] at hmatch
        simp at hmatch
  · rw [if_neg ht] at h
    simp only [mem_if_nil, List.mem_append, List.mem_cons, List.mem_singleton,
      List.mem_filterMap, List.mem_map, List.not_mem_nil, or_false, false_or,
      reduceCtorEq, exists_false, and_false, false_and] at h

theorem extract_ps_counts (lines : List String) (a : LogAnalysis) :
    (extract_plate_solve_phase lines a).plate_solve_successes = (psScan lines a).solved
    ∧ (extract_plate_solve_phase lines a).plate_solve_failures = (psScan lines a).failed := by
  unfold extract_plate_solve_phase
  exact ⟨(appendIfTimed_fields _ _).1, (appendIfTimed_fields _ _).2⟩

theorem foldl_cnt_fix (post : List String) :
    ∀ sc : Int × Int, (∀ l ∈ post, psAnyB l = false) → post.foldl cntStep sc = sc := by
  induction post with
  | nil => intro sc _; rfl
  | cons x xs ih =>
    intro sc hall
    have hx := hall x (List.mem_cons_self x xs)
    simp only [psAnyB, Bool.or_eq_false_iff] at hx
    rw [List.foldl_cons, show cntStep sc x = sc by simp [cntStep, hx.1.1, hx.1.2, hx.2]]
    exact ih sc (fun l hl => hall l (List.mem_cons_of_mem x hl))

/-! ## Claim C1 -/

/-- C1 counterexample: with the summary line `7 images successfully
platesolved out of 10` present together with a per-line counter line,
but the counter line occurring *after* the summary line, the analysis
ends with `plate_solve_successes = 8`, not the claimed `7`: the summary
line does not override counter lines that follow it. -/
theorem C1_cex :
    containsSub "platesolved and updated" "21:00:05: a.fit platesolved and updated" = true
    ∧ psSummaryNums "7 images successfully platesolved out of 10" = some (7, 10)
    ∧ (extract_plate_solve_phase
        ["7 images successfully platesolved out of 10",
         "21:00:05: a.fit platesolved and updated"] {}).plate_solve_successes = 8
    ∧ (extract_plate_solve_phase
        ["7 images successfully platesolved out of 10",
         "21:00:05: a.fit platesolved and updated"] {}).plate_solve_failures = 3
    ∧ (8 : Int) ≠ 7 := by
  refine ⟨by decide, by decide, by decide, by decide, by decide⟩

/-- C1 (amended): the summary line `N images successfully platesolved
out of M` overrides the running counters — `plate_solve_successes = N`,
`plate_solve_failures = M - N` — provided no per-line counter line and
no further summary line occurs after it; later matching lines update the
overridden values. -/
theorem C1_summary_override (pre post : List String) (line : String) (a : LogAnalysis)
    (N M : Int)
    (h1 : containsSub "platesolved and updated" line = false)
    (h2 : containsSub "did not solve" line = false)
    (h3 : containsSub "images successfully platesolved out of" line = true)
    (h4 : psSummaryNums line = some (N, M))
    (hpost : ∀ l ∈ post, psAnyB l = false) :
    (extract_plate_solve_phase (pre ++ line :: post) a).plate_solve_successes = N
    ∧ (extract_plate_solve_phase (pre ++ line :: post) a).plate_solve_failures = M - N := by
  obtain ⟨hs, hf⟩ := extract_ps_counts (pre ++ line :: post) a
  have hcounts := psScan_counts (pre ++ line :: post) a
  rw [List.foldl_append, List.foldl_cons,
    show cntStep (pre.foldl cntStep (0, 0)) line = (N, M - N) by
      simp [cntStep, h1, h2, h3, h4],
    foldl_cnt_fix post _ hpost] at hcounts
  exact ⟨hs.trans (congrArg Prod.fst hcounts), hf.trans (congrArg Prod.snd hcounts)⟩

/-- Witness for C1 (amended): two counter lines, then the summary line,
then an irrelevant line; the summary wins. -/
theorem C1_summary_override_w :
    (extract_plate_solve_phase
      (["21:00:01: r.fit platesolved and updated", "21:00:02: s.fit did not solve"]
        ++ "21:00:03: 7 images successfully platesolved out of 10" :: ["21:00:04: all done"])
      {}).plate_solve_successes = 7
    ∧ (extract_plate_solve_phase
      (["21:00:01: r.fit platesolved and updated", "21:00:02: s.fit did not solve"]
        ++ "21:00:03: 7 images successfully platesolved out of 10" :: ["21:00:04: all done"])
      {}).plate_solve_failures = 10 - 7 :=
  C1_summary_override _ _ _ _ 7 10 (by decide) (by decide) (by decide) (by decide) (by decide)

/-! ## Claim C2 -/

/-- C2 counterexample: on a log whose stacking scan meets a malformed
rejection percentage (`1.2.3%`), the scan has found both the start and
the end timestamp (shown on the two-line prefix), yet once the poison
line is scanned the rejection regex matches and `float("1.2.3")` raises
an uncaught `ValueError`: the stacking extractor aborts instead of
performing the guarded append, and `parse` itself crashes — so "the
extracted PhaseInfo is appended iff both timestamps were found" is false
as a statement about every input line sequence. -/
theorem C2_cex :
    stackScanTimes ["10:00:00: Starting stacking",
      "11:00:00: Stacked sequence successfully"] {} = some (some 36000, some 39600)
    ∧ extract_stacking_phase ["10:00:00: Starting stacking",
        "11:00:00: Stacked sequence successfully",
        "12:00:00: Pixel rejection in channel #0: 1.2.3% - 4.5%"] {} = Except.error ()
    ∧ parse (Except.ok ["10:00:00: Starting stacking",
        "11:00:00: Stacked sequence successfully",
        "12:00:00: Pixel rejection in channel #0: 1.2.3% - 4.5%"]) = Except.error () := by
  refine ⟨by decide, rfl, rfl⟩

/-- C2 (amended): for every line sequence, each of the four non-stacking
extractors appends its `PhaseInfo` to the phase list exactly when both a
start and an end timestamp were found, and the stacking extractor does
the same whenever its scan completes without raising (propagating the
uncaught `ValueError`, and appending nothing, when it does not); an
appended phase always carries a duration; and a phase absent from the
list never yields an execution-time entry in the rendered summary. -/
theorem C2_phase_append (lines : List String) (a : LogAnalysis) : PhaseAppendProp lines a := by
  unfold PhaseAppendProp
  refine ⟨?_, ?_, ?_, ?_, ?_, ?_, ?_, ?_, ?_, ?_, ?_⟩
  · refine (extract_pair _ _ _ ?_).1
    exact convScan_phases lines a
  · refine (extract_pair _ _ _ ?_).2
    exact convScan_phases lines a
  · refine (extract_pair _ _ _ ?_).1
    exact psScan_a_phases lines a
  · refine (extract_pair _ _ _ ?_).2
    exact psScan_a_phases lines a
  · refine (extract_pair _ _ _ ?_).1
    rfl
  · refine (extract_pair _ _ _ ?_).2
    rfl
  · refine (extract_pair _ _ _ ?_).1
    rfl
  · refine (extract_pair _ _ _ ?_).2
    rfl
  · intro b p h
    have hph : b.phases = a.phases := (stackScan_ok_times lines a b p h).2.2
    refine ⟨?_, (extract_pair b p a.phases hph).1, (extract_pair b p a.phases hph).2⟩
    simp [extract_stacking_phase, h]
  · intro h
    simp [extract_stacking_phase, h]
  · exact fun b nm d pc h => phaseDur_mem_summary b nm d pc h

/-- Witness for C2 at a concrete log: conversion has both markers (the
phase is appended), stacking has a start marker only (the phase is
dropped). -/
theorem C2_phase_append_w :
    PhaseAppendProp
      ["22:10:01: Convert: processing 10 files",
       "22:11:01: Converted 9 files for processing",
       "22:12:00: Starting stacking"] {} :=
  C2_phase_append _ _

/-! ## Claim C3 -/

/-- C3 counterexample: with two `Starting stacking` lines, the stacking
phase start is the timestamp of the *last* start-marker line (11:00:00),
not of the first matching line (10:00:00) as claimed (the scan completes
normally on this log, so its timestamps are observable). -/
theorem C3_cex :
    ((["10:00:00: Starting stacking", "11:00:00: Starting stacking",
       "12:00:00: Stacked sequence successfully"].filter stackStartB).head?
      = some "10:00:00: Starting stacking")
    ∧ parse_timestamp "10:00:00: Starting stacking" = some 36000
    ∧ stackScanTimes ["10:00:00: Starting stacking", "11:00:00: Starting stacking",
        "12:00:00: Stacked sequence successfully"] {} = some (some 39600, some 43200)
    ∧ (36000 : Nat) ≠ 39600 := by
  refine ⟨by decide, by decide, by decide, by decide⟩

/-- C3 (amended): the guarded starts (plate solving, background,
registration) equal the first parseable timestamp among their matching
lines; the unguarded starts (conversion, stacking) equal the timestamp
of the last start-marker line; every end equals the timestamp of the
last matching line; all are absent when no line matches.  For stacking
this holds for every scan that completes without raising the uncaught
`ValueError`; a raising scan produces no timestamps at all. -/
theorem C3_phase_times (lines : List String) (a : LogAnalysis) : PhaseTimesProp lines a := by
  unfold PhaseTimesProp
  refine ⟨convScan_start lines a, convScan_end lines a, psScan_p_start lines a,
    psScan_p_end lines a, bgScan_start lines, bgScan_end lines, regScan_start lines,
    regScan_end lines, ?_⟩
  intro b p h
  exact ⟨(stackScan_ok_times lines a b p h).1, (stackScan_ok_times lines a b p h).2.1⟩

/-- Witness for C3 (amended) at a concrete log, exercising in particular
the stacking clause at a normally completing scan. -/
theorem C3_phase_times_w :
    PhaseTimesProp ["10:00:00: Starting stacking",
      "11:00:00: Stacked sequence successfully",
      "11:30:00: Background extraction: processing...",
      "11:40:00: 1 image successfully platesolved"] {} :=
  C3_phase_times _ _

/-! ## Waterfall bar and percentage lemmas -/

theorem make_bar_length (mc c : Int) (h : mc ≠ 0) :
    (make_bar mc c).length = (ratTrunc ((c : ℚ) / (mc : ℚ) * 40)).toNat := by
  rw [make_bar, if_neg h]
  simp [String.length]

theorem wInitial_bar {a : LogAnalysis} {label : String} {c : Int} {bar : String} {pct : Option ℚ}
    (h : WLine.entry label c bar pct ∈ wInitialBlock a) : bar = make_bar a.initial_images c := by
  simp only [wInitialBlock, format_line, List.mem_cons, List.not_mem_nil, or_false,
    reduceCtorEq, WLine.entry.injEq] at h
  rw [h.2.2.1, h.2.1]

theorem wConv_bar {a : LogAnalysis} {label : String} {c : Int} {bar : String} {pct : Option ℚ}
    (h : WLine.entry label c bar pct ∈ wConvBlock a) : bar = make_bar a.initial_images c := by
  rcases hf : a.phases.find? (fun p => containsSub "Conversion" p.name) with _ | cp
  · simp only [wConvBlock, hf, List.not_mem_nil] at h
  · rcases ho : cp.image_count_out with _ | n
    · simp only [wConvBlock, hf, ho, List.not_mem_nil] at h
    · by_cases hz : n ≠ 0
      · simp only [wConvBlock, hf, ho, if_pos hz, format_line, List.mem_cons, List.not_mem_nil,
          or_false, reduceCtorEq, WLine.entry.injEq] at h
        rw [h.2.2.1, h.2.1]
      · simp only [wConvBlock, hf, ho, if_neg hz, List.not_mem_nil] at h

theorem wPlate_bar {a : LogAnalysis} {label : String} {c : Int} {bar : String} {pct : Option ℚ}
    (h : WLine.entry label c bar pct ∈ wPlateBlock a) : bar = make_bar a.initial_images c := by
  unfold wPlateBlock at h
  split_ifs at h <;>
    simp only [format_line, List.mem_append, List.mem_cons, List.not_mem_nil, or_false,
      false_or, reduceCtorEq, WLine.entry.injEq] at h <;>
  · rw [h.2.2.1, h.2.1]

theorem wReg_bar {a : LogAnalysis} {label : String} {c : Int} {bar : String} {pct : Option ℚ}
    (h : WLine.entry label c bar pct ∈ wRegBlock a) : bar = make_bar a.initial_images c := by
  rcases hf : a.phases.find? (fun p => containsSub "Registration" p.name) with _ | rp
  · simp only [wRegBlock, hf, List.not_mem_nil] at h
  · simp only [wRegBlock, hf, format_line, List.mem_cons, List.not_mem_nil, or_false,
      reduceCtorEq, WLine.entry.injEq] at h
    rw [h.2.2.1, h.2.1]

theorem wFinal_bar {a : LogAnalysis} {label : String} {c : Int} {bar : String} {pct : Option ℚ}
    (h : WLine.entry label c bar pct ∈ wFinalBlock a) : bar = make_bar a.initial_images c := by
  unfold wFinalBlock at h
  split_ifs at h <;>
    simp only [format_line, mem_if_nil, List.mem_append, List.mem_cons, List.not_mem_nil,
      or_false, false_or, and_false, reduceCtorEq, WLine.entry.injEq] at h <;>
  · rw [h.2.2.1, h.2.1]

theorem entry_bar_of_mem {a : LogAnalysis} {label : String} {c : Int} {bar : String}
    {pct : Option ℚ} (h : WLine.entry label c bar pct ∈ generate_waterfall a) :
    bar = make_bar a.initial_images c := by
  unfold generate_waterfall at h
  simp only [List.mem_append, List.mem_cons, List.not_mem_nil, or_false, false_or,
    reduceCtorEq] at h
  rcases h with ((((h | h) | h) | h) | h)
  · exact wInitial_bar h
  · exact wConv_bar h
  · exact wPlate_bar h
  · exact wReg_bar h
  · exact wFinal_bar h

theorem wInit_pcts (a : LogAnalysis) (h : 0 < a.initial_images) :
    (wInitialBlock a).filterMap entryPct
      = ((wInitialBlock a).filterMap entryCount).map
          (fun c : Int => (c : ℚ) / (a.initial_images : ℚ) * 100) := by
  simp only [wInitialBlock, format_line, List.filterMap_cons, List.filterMap_nil, entryPct,
    entryCount, List.map_cons, List.map_nil]
  rw [div_self (by exact_mod_cast h.ne' : ((a.initial_images : ℚ) ≠ 0)), one_mul]

theorem wConv_pcts (a : LogAnalysis) (h : 0 < a.initial_images) :
    (wConvBlock a).filterMap entryPct
      = ((wConvBlock a).filterMap entryCount).map
          (fun c : Int => (c : ℚ) / (a.initial_images : ℚ) * 100) := by
  rcases hf : a.phases.find? (fun p => containsSub "Conversion" p.name) with _ | cp
  · simp [wConvBlock, hf]
  · rcases ho : cp.image_count_out with _ | n
    · simp [wConvBlock, hf, ho]
    · by_cases hz : n ≠ 0
      · simp only [wConvBlock, hf, ho, if_pos hz, format_line, List.filterMap_cons,
          List.filterMap_nil, entryPct, entryCount, List.map_cons, List.map_nil]
        rw [wPct, if_pos h]
      · simp [wConvBlock, hf, ho, hz]

theorem wPlate_pcts (a : LogAnalysis) (h : 0 < a.initial_images) :
    (wPlateBlock a).filterMap entryPct
      = ((wPlateBlock a).filterMap entryCount).map
          (fun c : Int => (c : ℚ) / (a.initial_images : ℚ) * 100) := by
  unfold wPlateBlock
  split_ifs <;> simp [format_line, entryPct, entryCount, wPct, h]

theorem wReg_pcts (a : LogAnalysis) (h : 0 < a.initial_images) :
    (wRegBlock a).filterMap entryPct
      = ((wRegBlock a).filterMap entryCount).map
          (fun c : Int => (c : ℚ) / (a.initial_images : ℚ) * 100) := by
  rcases hf : a.phases.find? (fun p => containsSub "Registration" p.name) with _ | rp
  · simp [wRegBlock, hf]
  · simp only [wRegBlock, hf, format_line, List.filterMap_cons, List.filterMap_nil, entryPct,
      entryCount, List.map_cons, List.map_nil]
    rw [wPct, if_pos h]

theorem wFinal_pcts (a : LogAnalysis) (h : 0 < a.initial_images) :
    (wFinalBlock a).filterMap entryPct
      = ((wFinalBlock a).filterMap entryCount).map
          (fun c : Int => (c : ℚ) / (a.initial_images : ℚ) * 100) := by
  unfold wFinalBlock
  split_ifs <;>
    simp [format_line, entryPct, entryCount, wPct, h, apply_ite (List.filterMap entryPct),
      apply_ite (List.filterMap entryCount)]

/-- With a positive initial count, the printed percentages are exactly
the stage counts rescaled by `100 / initial_images`. -/
theorem wPcts_eq (a : LogAnalysis) (h : 0 < a.initial_images) :
    wPcts a = (wCounts a).map (fun c : Int => (c : ℚ) / (a.initial_images : ℚ) * 100) := by
  unfold wPcts wCounts generate_waterfall
  simp only [List.filterMap_append, List.map_append]
  rw [wInit_pcts a h, wConv_pcts a h, wPlate_pcts a h, wReg_pcts a h, wFinal_pcts a h]
  simp [entryPct, entryCount]

/-- On non-negative rationals, Python `int()` truncation agrees with the
floor. -/
theorem ratTrunc_eq_floor (q : ℚ) (h : 0 ≤ q) : ratTrunc q = ⌊q⌋ := by
  have hnum : 0 ≤ q.num := Rat.num_nonneg.mpr h
  rw [ratTrunc, if_pos hnum, Rat.floor_def]
  rw [← Int.toNat_of_nonneg hnum]
  exact (Int.ofNat_div _ _).symm

/-! ## Claim C4 -/

/-- C4 counterexample: for `initial_images = 3` and a stage count of 2
the rendered bar has `int((2/3)*40) = 26` filled characters, while the
claimed `round((2/3)*40)` is 27: the code truncates, it does not
round. -/
theorem C4_cex :
    WLine.entry "After Plate Solving" 2 (make_bar 3 2)
        (some (wPct { initial_images := 3, plate_solve_successes := 2 } 2))
      ∈ generate_waterfall { initial_images := 3, plate_solve_successes := 2 }
    ∧ (make_bar 3 2).length = 26
    ∧ round (((2 : Int) : ℚ) / ((3 : Int) : ℚ) * 40) = 27
    ∧ (26 : ℤ) ≠ 27 := by
  refine ⟨?_, ?_, ?_, by decide⟩
  · unfold generate_waterfall
    apply List.mem_append_left
    apply List.mem_append_left
    apply List.mem_append_left
    apply List.mem_append_right
    unfold wPlateBlock
    rw [if_pos (show ({ initial_images := 3, plate_solve_successes := 2 }
      : LogAnalysis).plate_solve_successes > 0 by decide)]
    exact List.mem_append_left _ (List.mem_append_left _ (List.mem_cons_self _ _))
  · rw [make_bar_length 3 2 (by decide), ratTrunc_eq_floor _ (by norm_num),
      show ⌊((2 : Int) : ℚ) / ((3 : Int) : ℚ) * 40⌋ = 26 by norm_num]
    decide
  · norm_num [round_eq]

/-- C4 (amended): every bar entry of the waterfall (for a record with
positive `initial_images`) has fill length
`int(count / initial_images * 40)` — truncation toward zero, not
rounding — and a stage with an unavailable (`None`) count renders as the
`N/A` line instead of a bar. -/
theorem C4_bar_truncation (a : LogAnalysis) (h : 0 < a.initial_images)
    (label : String) (c : Int) (bar : String) (pct : Option ℚ)
    (hmem : WLine.entry label c bar pct ∈ generate_waterfall a) :
    bar.length = (ratTrunc ((c : ℚ) / (a.initial_images : ℚ) * 40)).toNat
    ∧ ∀ (lb : String) (pc : Option ℚ), format_line a.initial_images lb none pc = WLine.na lb := by
  refine ⟨?_, fun lb pc => rfl⟩
  rw [entry_bar_of_mem hmem, make_bar_length _ _ (by omega)]

/-- Witness for C4 (amended) at `initial_images = 3`, count 2. -/
theorem C4_bar_truncation_w :
    (make_bar 3 2).length
        = (ratTrunc (((2 : Int) : ℚ) / ((3 : Int) : ℚ) * 40)).toNat
    ∧ ∀ (lb : String) (pc : Option ℚ), format_line (3 : Int) lb none pc = WLine.na lb :=
  C4_bar_truncation { initial_images := 3, plate_solve_successes := 2 } (by decide)
    "After Plate Solving" 2 (make_bar 3 2)
    (some (wPct { initial_images := 3, plate_solve_successes := 2 } 2))
    (by
      unfold generate_waterfall
      apply List.mem_append_left
      apply List.mem_append_left
      apply List.mem_append_left
      apply List.mem_append_right
      unfold wPlateBlock
      rw [if_pos (show ({ initial_images := 3, plate_solve_successes := 2 }
        : LogAnalysis).plate_solve_successes > 0 by decide)]
      exact List.mem_append_left _ (List.mem_append_left _ (List.mem_cons_self _ _)))

/-! ## Claim C5 -/

/-- C5 counterexample: a record with `initial_images = 10`, a conversion
phase with `image_count_out = 5` and `plate_solve_successes = 8` renders
the percentages `[100, 50, 80]`, which are not monotonically
non-increasing. -/
theorem C5_cex :
    wPcts aWaterfallDemo = [100, 50, 80]
    ∧ ¬ List.Chain' (fun x y : ℚ => x ≥ y) (wPcts aWaterfallDemo) := by
  have h1 : wPcts aWaterfallDemo = [100, 50, 80] := by
    have hc : wCounts aWaterfallDemo = [10, 5, 8] := by decide
    rw [wPcts_eq _ (by decide), hc]
    norm_num [aWaterfallDemo]
  refine ⟨h1, ?_⟩
  rw [h1]
  norm_num [List.chain'_cons, List.chain'_singleton]

/-- C5 (amended): the waterfall percentages are all computed relative to
`initial_images`, so they are order-isomorphic to the stage counts:
whenever the emitted stage counts are non-increasing top to bottom, the
printed percentages are non-increasing as well.  (They are not
non-increasing for every record: counts themselves need not
decrease.) -/
theorem C5_pct_monotone (a : LogAnalysis) (h : 0 < a.initial_images)
    (hc : List.Chain' (fun x y : Int => x ≥ y) (wCounts a)) :
    List.Chain' (fun x y : ℚ => x ≥ y) (wPcts a) := by
  rw [wPcts_eq a h, List.chain'_map]
  refine hc.imp ?_
  intro x y hxy
  have hinit : (0 : ℚ) < (a.initial_images : ℚ) := by exact_mod_cast h
  have hcast : (y : ℚ) ≤ (x : ℚ) := by exact_mod_cast hxy
  exact mul_le_mul_of_nonneg_right
    ((div_le_div_iff_of_pos_right hinit).mpr hcast) (by norm_num)

/-- Witness for C5 (amended): counts `[10, 5, 4]` yield non-increasing
percentages. -/
theorem C5_pct_monotone_w :
    List.Chain' (fun x y : ℚ => x ≥ y)
      (wPcts { initial_images := 10, plate_solve_successes := 5, final_images := 4 }) :=
  C5_pct_monotone _ (by decide)
    (by
      have hc : wCounts { initial_images := 10, plate_solve_successes := 5, final_images := 4 }
          = [10, 5, 4] := by decide
      rw [hc]
      norm_num [List.chain'_cons, List.chain'_singleton])

/-! ## Claim C6 -/

theorem dv_le_nine {c : Char} (h : c.isDigit = true) : dv c ≤ 9 := by
  have hb : 48 ≤ c.toNat ∧ c.toNat ≤ 57 := by
    simp [Char.isDigit] at h
    exact ⟨h.1, h.2⟩
  unfold dv
  omega

theorem dChar_dv {c : Char} (h : c.isDigit = true) : dChar (dv c) = c := by
  have hb : 48 ≤ c.toNat ∧ c.toNat ≤ 57 := by
    simp [Char.isDigit] at h
    exact ⟨h.1, h.2⟩
  rw [dChar, dv, show 48 + (c.toNat - 48) = c.toNat by omega, Char.ofNat_toNat]

theorem dChar_isDigit {n : Nat} (h : n ≤ 9) : (dChar n).isDigit = true := by
  interval_cases n <;> decide

theorem dv_dChar {n : Nat} (h : n ≤ 9) : dv (dChar n) = n := by
  interval_cases n <;> decide

/-- C6: the timestamp extractor returns a time of day exactly when the
line begins, at position 0, with a `HH:MM:SS:` token carrying a valid
24-hour time; on every other line (including malformed digit groups such
as an hour of 25) it returns absence — it is a total function into
`Option`, never an error. -/
theorem C6_parse_timestamp (line : String) (t : Nat) :
    parse_timestamp line = some t ↔ validTimeToken line t := by
  constructor
  · intro h
    unfold parse_timestamp at h
    split at h
    case h_2 => exact absurd h (by simp)
    case h_1 c0 c1 c2 c3 c4 c5 c6 c7 c8 rest hl =>
      by_cases hcond : (c0.isDigit && c1.isDigit && c2 == ':' && c3.isDigit && c4.isDigit
          && c5 == ':' && c6.isDigit && c7.isDigit && c8 == ':') = true
      · rw [if_pos hcond] at h
        simp only [Bool.and_eq_true, beq_iff_eq] at hcond
        obtain ⟨⟨⟨⟨⟨⟨⟨⟨hd0, hd1⟩, hc2⟩, hd3⟩, hd4⟩, hc5⟩, hd6⟩, hd7⟩, hc8⟩ := hcond
        by_cases hrange : ((10 * dv c0 + dv c1 ≤ 23 : Bool) && (10 * dv c3 + dv c4 ≤ 59 : Bool)
            && (10 * dv c6 + dv c7 ≤ 59 : Bool)) = true
        · rw [if_pos hrange] at h
          simp only [Bool.and_eq_true, decide_eq_true_eq] at hrange
          obtain ⟨⟨hr1, hr2⟩, hr3⟩ := hrange
          refine ⟨10 * dv c0 + dv c1, 10 * dv c3 + dv c4, 10 * dv c6 + dv c7, rest,
            by omega, by omega, by omega, ?_, ?_⟩
          · have e0 := dv_le_nine hd0
            have e1 := dv_le_nine hd1
            have e3 := dv_le_nine hd3
            have e4 := dv_le_nine hd4
            have e6 := dv_le_nine hd6
            have e7 := dv_le_nine hd7
            rw [hl, hc2, hc5, hc8,
              show (10 * dv c0 + dv c1) / 10 = dv c0 by omega,
              show (10 * dv c0 + dv c1) % 10 = dv c1 by omega,
              show (10 * dv c3 + dv c4) / 10 = dv c3 by omega,
              show (10 * dv c3 + dv c4) % 10 = dv c4 by omega,
              show (10 * dv c6 + dv c7) / 10 = dv c6 by omega,
              show (10 * dv c6 + dv c7) % 10 = dv c7 by omega,
              dChar_dv hd0, dChar_dv hd1, dChar_dv hd3, dChar_dv hd4,
              dChar_dv hd6, dChar_dv hd7]
          · exact (Option.some.injEq _ _ ▸ h).symm
        · rw [if_neg hrange] at h
          exact absurd h (by simp)
      · rw [if_neg hcond] at h
        exact absurd h (by simp)
  · rintro ⟨h, m, s, rest, hh, hm, hs, hl, ht⟩
    have e1 : h / 10 ≤ 9 := by omega
    have e2 : h % 10 ≤ 9 := by omega
    have e3 : m / 10 ≤ 9 := by omega
    have e4 : m % 10 ≤ 9 := by omega
    have e5 : s / 10 ≤ 9 := by omega
    have e6 : s % 10 ≤ 9 := by omega
    have hle1 : 10 * (h / 10) + h % 10 ≤ 23 := by omega
    have hle2 : 10 * (m / 10) + m % 10 ≤ 59 := by omega
    have hle3 : 10 * (s / 10) + s % 10 ≤ 59 := by omega
    unfold parse_timestamp
    rw [hl]
    simp only [dChar_isDigit e1, dChar_isDigit e2, dChar_isDigit e3, dChar_isDigit e4,
      dChar_isDigit e5, dChar_isDigit e6, beq_self_eq_true, Bool.and_self, Bool.and_true,
      Bool.true_and, if_true, dv_dChar e1, dv_dChar e2, dv_dChar e3, dv_dChar e4,
      dv_dChar e5, dv_dChar e6, hle1, hle2, hle3, decide_true_eq_true]
    rw [show 10 * (h / 10) + h % 10 = h by omega, show 10 * (m / 10) + m % 10 = m by omega,
      show 10 * (s / 10) + s % 10 = s by omega, ht]

/-- Witness for C6: the line `12:34:56: ok` parses to 45296 seconds and
hence begins with a valid time token. -/
theorem C6_parse_timestamp_w : validTimeToken "12:34:56: ok" 45296 :=
  (C6_parse_timestamp "12:34:56: ok" 45296).mp (by decide)

/-! ## Claim C7 -/

/-- C7: when the file read fails, `parse` returns normally (`Except.ok`
— this path raises nothing) with a record containing exactly one error
entry and zero phases, every other field at its default, and the summary
renderer still produces its report (the same report as for the
all-default record, since `errors` is not consulted by the renderer). -/
theorem C7_read_failure (e : String) :
    parse (Except.error e) = Except.ok { errors := ["Failed to read log file: " ++ e] }
    ∧ ({ errors := ["Failed to read log file: " ++ e] } : LogAnalysis).errors.length = 1
    ∧ ({ errors := ["Failed to read log file: " ++ e] } : LogAnalysis).phases = []
    ∧ generate_summary { errors := ["Failed to read log file: " ++ e] }
        = generate_summary ({} : LogAnalysis) := by
  exact ⟨rfl, rfl, rfl, rfl⟩

/-! ## Claim C8 -/

theorem fwhm_notin_psRec (a : LogAnalysis) : Recom.fwhmVariation ∉ psRecBlock a := by
  simp only [psRecBlock]
  split_ifs <;> simp

theorem fwhm_notin_retentionRec (a : LogAnalysis) :
    Recom.fwhmVariation ∉ retentionRecBlock a := by
  simp only [retentionRecBlock]
  split_ifs <;> simp

theorem fwhm_mem_fwhmRec (a : LogAnalysis) :
    Recom.fwhmVariation ∈ fwhmRecBlock a
      ↔ (10 < a.fwhm_values.length ∧ 2 < qMax a.fwhm_values - qMin a.fwhm_values) := by
  unfold fwhmRecBlock
  by_cases h1 : (a.fwhm_values ≠ [] ∧ a.fwhm_values.length > 10)
  · rw [if_pos h1]
    by_cases h2 : qMax a.fwhm_values - qMin a.fwhm_values > 2
    · rw [if_pos h2]
      simp [h1.2, h2]
    · rw [if_neg h2]
      simp only [List.not_mem_nil, false_iff, not_and]
      intro _ hr
      exact h2 hr
  · rw [if_neg h1]
    simp only [List.not_mem_nil, false_iff, not_and]
    intro hlen
    exfalso
    refine h1 ⟨?_, hlen⟩
    intro hnil
    rw [hnil] at hlen
    simp at hlen

/-- C8 counterexample: with exactly 10 FWHM samples spanning a range of
3 pixels (well over 2.0), the recommendation is not emitted — the code
requires strictly more than 10 samples, not "at least 10". -/
theorem C8_cex :
    ([1, 1, 1, 1, 1, 1, 1, 1, 1, 4] : List ℚ).length = 10
    ∧ qMax ([1, 1, 1, 1, 1, 1, 1, 1, 1, 4] : List ℚ) = 4
    ∧ qMin ([1, 1, 1, 1, 1, 1, 1, 1, 1, 4] : List ℚ) = 1
    ∧ (2 : ℚ) < 4 - 1
    ∧ Recom.fwhmVariation
        ∉ generate_recommendations { fwhm_values := [1, 1, 1, 1, 1, 1, 1, 1, 1, 4] } := by
  refine ⟨by decide, by decide, by decide, by norm_num, by decide⟩

/-- C8 (amended): the FWHM-variation recommendation is emitted exactly
when strictly more than 10 samples exist (11 or more) and
`max - min > 2.0`; with 10 or fewer samples it is never emitted,
whatever the range. -/
theorem C8_fwhm_variation (a : LogAnalysis) :
    Recom.fwhmVariation ∈ generate_recommendations a
      ↔ (10 < a.fwhm_values.length ∧ 2 < qMax a.fwhm_values - qMin a.fwhm_values) := by
  simp only [generate_recommendations]
  split_ifs with he
  · simp only [List.mem_singleton, reduceCtorEq, false_iff]
    rw [List.isEmpty_iff] at he
    intro hcond
    have := (fwhm_mem_fwhmRec a).mpr hcond
    have hne : fwhmRecBlock a ≠ [] := List.ne_nil_of_mem this
    simp only [List.append_eq_nil] at he
    exact hne he.2
  · rw [List.mem_append, List.mem_append]
    constructor
    · rintro ((h | h) | h)
      · exact absurd h (fwhm_notin_psRec a)
      · exact absurd h (fwhm_notin_retentionRec a)
      · exact (fwhm_mem_fwhmRec a).mp h
    · intro hcond
      exact Or.inr ((fwhm_mem_fwhmRec a).mpr hcond)

/-- Witness for C8 (amended): eleven samples with range 3 trigger the
recommendation. -/
theorem C8_fwhm_variation_w :
    Recom.fwhmVariation
      ∈ generate_recommendations { fwhm_values := [1, 1, 1, 1, 1, 1, 1, 1, 1, 1, 4] } := by
  refine (C8_fwhm_variation _).mpr ⟨by decide, ?_⟩
  rw [show qMax ([1, 1, 1, 1, 1, 1, 1, 1, 1, 1, 4] : List ℚ) = 4 from by decide,
    show qMin ([1, 1, 1, 1, 1, 1, 1, 1, 1, 1, 4] : List ℚ) = 1 from by decide]
  norm_num

/-! ## Claim C9 -/

theorem mem_make_bar_divisors {mc : Int} {d : ℚ} (h : d ∈ make_bar_divisors mc) :
    d = (mc : ℚ) ∧ mc ≠ 0 := by
  unfold make_bar_divisors at h
  split_ifs at h with hmc
  · simp at h
  · simp at h
    exact ⟨h, hmc⟩

theorem mem_pctDiv {a : LogAnalysis} {d : ℚ}
    (h : d ∈ (if a.initial_images > 0 then [((a.initial_images : Int) : ℚ)] else [])) :
    d = ((a.initial_images : Int) : ℚ) ∧ a.initial_images ≠ 0 := by
  split_ifs at h with hp
  · simp at h
    exact ⟨h, by omega⟩
  · simp at h

theorem mem_pct_mbd {a : LogAnalysis} {d : ℚ}
    (h : d ∈ ((if a.initial_images > 0 then [((a.initial_images : Int) : ℚ)] else [])
        ++ make_bar_divisors a.initial_images)) :
    d = ((a.initial_images : Int) : ℚ) ∧ a.initial_images ≠ 0 := by
  rcases List.mem_append.mp h with h | h
  · exact mem_pctDiv h
  · exact mem_make_bar_divisors h

theorem mem_waterfall_divisors {a : LogAnalysis} {d : ℚ} (h : d ∈ waterfall_divisors a) :
    d = ((a.initial_images : Int) : ℚ) ∧ a.initial_images ≠ 0 := by
  simp only [waterfall_divisors, List.mem_append] at h
  rcases h with ((((h | h) | h) | h) | h)
  · exact mem_make_bar_divisors h
  · rcases hf : a.phases.find? (fun p => containsSub "Conversion" p.name) with _ | cp
    · simp only [hf] at h
      simp at h
    · rcases ho : cp.image_count_out with _ | n
      · simp only [hf, ho] at h
        simp at h
      · simp only [hf, ho] at h
        by_cases hz : n ≠ 0
        · rw [if_pos hz] at h
          exact mem_pct_mbd h
        · rw [if_neg hz] at h
          simp at h
  · by_cases hp : a.plate_solve_successes > 0
    · rw [if_pos hp] at h
      exact mem_pct_mbd h
    · rw [if_neg hp] at h
      simp at h
  · rcases hf : a.phases.find? (fun p => containsSub "Registration" p.name) with _ | rp
    · simp only [hf] at h
      simp at h
    · simp only [hf] at h
      exact mem_pct_mbd h
  · by_cases hp : a.final_images > 0
    · rw [if_pos hp] at h
      exact mem_pct_mbd h
    · rw [if_neg hp] at h
      simp at h

/-- C9 counterexample: parsing the single crafted line `5 images
successfully platesolved out of 0` completes normally and yields the
otherwise-default record with `plate_solve_successes = 5` and
`plate_solve_failures = -5`; rendering the summary of that record then
evaluates the plate-solve success-rate division at denominator
`successes + failures = 0` (a `ZeroDivisionError` in the Python
source) — the renderers' divisions are not all guarded, and the
renderers are not total on every record. -/
theorem C9_cex :
    parse (Except.ok ["5 images successfully platesolved out of 0"])
        = Except.ok { plate_solve_successes := 5, plate_solve_failures := -5 }
    ∧ (0 : ℚ) ∈ summary_divisors
        { plate_solve_successes := 5, plate_solve_failures := -5 } := by
  refine ⟨rfl, by decide⟩

/-- C9 (amended): for every record with non-negative
`plate_solve_failures` (as produced by any log without a malformed
summary line), every division evaluated by the waterfall renderer and
the summary renderer has a non-zero denominator, and `make_bar` falls
back to the empty bar when `initial_images = 0`. -/
theorem C9_guarded_divisors (a : LogAnalysis) (hf : 0 ≤ a.plate_solve_failures) :
    (∀ d ∈ waterfall_divisors a, d ≠ 0)
    ∧ (∀ d ∈ summary_divisors a, d ≠ 0)
    ∧ (∀ c : Int, make_bar 0 c = "") := by
  have hw : ∀ d ∈ waterfall_divisors a, d ≠ 0 := by
    intro d hd
    obtain ⟨he, hne⟩ := mem_waterfall_divisors hd
    rw [he]
    exact_mod_cast hne
  refine ⟨hw, ?_, fun c => rfl⟩
  intro d hd
  simp only [summary_divisors, List.mem_append] at hd
  rcases hd with ((((hd | hd) | hd) | hd) | hd)
  · split_ifs at hd with ht
    · rcases List.mem_filterMap.mp hd with ⟨p, _, heq⟩
      cases hdur : p.duration with
      | none => rw [hdur] at heq; simp at heq
      | some dd =>
        simp only [hdur] at heq
        split_ifs at heq
        rw [Option.some.injEq] at heq
        rw [← heq]
        exact_mod_cast (by omega : totalDuration a ≠ 0)
    · simp at hd
  · exact hw d hd
  · split_ifs at hd with hp
    · simp at hd
      rw [hd]
      exact_mod_cast (by omega : a.initial_images ≠ 0)
    · simp at hd
  · split_ifs at hd with hp
    · simp at hd
      rw [hd]
      exact_mod_cast (by omega : a.plate_solve_successes + a.plate_solve_failures ≠ 0)
    · simp at hd
  · simp only [recommendation_divisors, List.mem_append] at hd
    rcases hd with hd | hd
    · split_ifs at hd with hp
      · simp at hd
        rw [hd]
        exact_mod_cast (by omega : a.plate_solve_successes + a.plate_solve_failures ≠ 0)
      · simp at hd
    · split_ifs at hd with hp
      · simp at hd
        rw [hd]
        exact_mod_cast (by omega : a.initial_images ≠ 0)
      · simp at hd

/-- Witness for C9 (amended) at a well-formed record. -/
theorem C9_guarded_divisors_w :
    (∀ d ∈ waterfall_divisors aGuardDemo, d ≠ 0)
    ∧ (∀ d ∈ summary_divisors aGuardDemo, d ≠ 0)
    ∧ (∀ c : Int, make_bar 0 c = "") :=
  C9_guarded_divisors aGuardDemo (by decide)

/-! ## Claim C10 -/

/-- C10: with `plate_solve_successes = 0` the quality-metrics
plate-solve success line is suppressed and no plate-solve recommendation
(excellent / good / low) is ever emitted, even when failures are
positive; the failure is reported only through the pattern entry, which
is present exactly when `plate_solve_failures > 0`. -/
theorem C10_suppression (a : LogAnalysis) (hs : a.plate_solve_successes = 0) :
    (∀ r : ℚ, SLine.qPlateSolve r ∉ generate_summary a)
    ∧ (∀ x ∈ generate_recommendations a, ∀ q : ℚ,
        x ≠ Recom.psExcellent q ∧ x ≠ Recom.psGood q ∧ x ≠ Recom.psLow q)
    ∧ ((∃ r : ℚ, Pat.plateSolveFail a.plate_solve_failures r ∈ (detect_patterns a).patterns)
        ↔ 0 < a.plate_solve_failures) := by
  refine ⟨?_, ?_, ?_⟩
  · intro r hmem
    simp only [generate_summary] at hmem
    by_cases ht : totalDuration a > 0
    · rw [if_pos ht] at hmem
      simp only [mem_if_nil, List.mem_append, List.mem_cons, List.mem_singleton,
        List.mem_filterMap, List.mem_map, List.not_mem_nil, or_false, false_or, reduceCtorEq,
        exists_false, and_false, false_and, hs, gt_iff_lt, lt_self_iff_false] at hmem
      rcases hmem with ⟨p, _, heq⟩
      cases hd : p.duration with
      | none => rw [hd] at heq; simp at heq
      | some dd =>
        simp only [hd] at heq
        split_ifs at heq
        simp at heq
    · rw [if_neg ht] at hmem
      simp only [mem_if_nil, List.mem_append, List.mem_cons, List.mem_singleton,
        List.mem_filterMap, List.mem_map, List.not_mem_nil, or_false, false_or, reduceCtorEq,
        exists_false, and_false, false_and, hs, gt_iff_lt, lt_self_iff_false] at hmem
  · intro x hx q
    simp only [generate_recommendations] at hx
    split_ifs at hx with he
    · simp only [List.mem_singleton] at hx
      subst hx
      exact ⟨by simp, by simp, by simp⟩
    · simp only [List.mem_append] at hx
      rcases hx with (hx | hx) | hx
      · simp only [psRecBlock, hs, gt_iff_lt, lt_self_iff_false, if_false] at hx
        simp at hx
      · simp only [retentionRecBlock] at hx
        split_ifs at hx <;> simp_all
      · simp only [fwhmRecBlock] at hx
        split_ifs at hx <;> simp_all
  · constructor
    · rintro ⟨r, hr⟩
      by_contra hneg
      simp only [detect_patterns, mem_if_nil, List.mem_append, List.mem_cons,
        List.mem_singleton, List.not_mem_nil, or_false, false_or, reduceCtorEq, and_false,
        false_and, hneg, gt_iff_lt] at hr
    · intro hfpos
      refine ⟨if a.plate_solve_successes + a.plate_solve_failures > 0
          then (a.plate_solve_failures : ℚ)
            / ((a.plate_solve_successes + a.plate_solve_failures : Int) : ℚ) * 100
          else 0, ?_⟩
      simp only [detect_patterns]
      apply List.mem_append_left
      apply List.mem_append_left
      apply List.mem_append_left
      apply List.mem_append_left
      apply List.mem_append_left
      rw [if_pos hfpos]
      exact List.mem_cons_self _ _

/-- Witness for C10 at a record with three failures and no
successes. -/
theorem C10_suppression_w :
    (∀ r : ℚ, SLine.qPlateSolve r ∉ generate_summary { plate_solve_failures := 3 })
    ∧ (∀ x ∈ generate_recommendations { plate_solve_failures := 3 }, ∀ q : ℚ,
        x ≠ Recom.psExcellent q ∧ x ≠ Recom.psGood q ∧ x ≠ Recom.psLow q)
    ∧ ((∃ r : ℚ, Pat.plateSolveFail
          ({ plate_solve_failures := 3 } : LogAnalysis).plate_solve_failures r
          ∈ (detect_patterns { plate_solve_failures := 3 }).patterns)
        ↔ 0 < ({ plate_solve_failures := 3 } : LogAnalysis).plate_solve_failures) :=
  C10_suppression _ rfl

end SirilLog
